import Mathlib

/-!
# BaseHTTPPeer: the per-connection state machine of the HTTP server

A shallow embedding of `src/ripple/server/impl/BaseHTTPPeer.h`.

The connection object becomes the record `BaseHTTPPeer`; every member function
becomes a function on that record.  Each effect on a collaborator (the
transport stream, the deadline timer, the strand, the journal, the handler and
the pure virtual hooks of `Impl`) is appended to the field `trace`, so that
what a call did to the outside world can be read off the resulting state.

What the environment decides is passed in as an argument:
* `on_strand` is the value of `strand_.running_in_this_thread()`;
* `arm` is the error code that `timer_.expires_from_now` reports;
* the completions of `async_read` are the list `reads` given to `do_read`;
* the HTTP parser (`beast::http::parser`, not part of this file) is a
  record of functions `Parser`.

`message_` and `body_` are written only by the parser and are part of the
abstract parser state; no branch of this file reads them.

A member function is one step when the strand runs it: the strand runs its
handlers one at a time.  A call made off the strand can fall between two
steps of a handler; for `on_write`, which releases `mutex_` before it reads
`wq2_` again, the two halves `on_write_swap` and `on_write_send` are given
as functions of their own, so that a call from another thread can be placed
between them.
-/

namespace Ripple

/-- One octet of the wire. -/
abbrev Byte := Fin 256

/-- Width of `std::size_t` on the target. -/
def sizeBits : Nat := 64

/-- Size of the read/write buffer (`bufferSize`). -/
def bufferSize : Nat := 4 * 1024

/-- Max seconds without completing a message (`timeoutSeconds`). -/
def timeoutSeconds : Nat := 30

/-- The values of `boost::system::error_code` the file tells apart.
`success` is the default constructed code, which tests false. -/
inductive ErrorCode
  | success
  | operation_aborted
  | eof
  | timed_out
  | other (code : Nat)
deriving DecidableEq, Repr

/-- The `struct buffer`: an owned copy of the bytes of one write. -/
structure buffer where
  data : List Byte
  bytes : Nat
  used : Nat
deriving DecidableEq, Repr

/-- The constructor `buffer (ptr, len)`: copies `len` bytes, `used` is 0.
The argument list is the memory `[ptr, ptr+len)`, so `len` is its length. -/
def buffer.new (ptr : List Byte) : buffer :=
  { data := ptr, bytes := ptr.length, used := 0 }

/-- The range `const_buffer (b.data.get(), b.bytes)` given to the transport. -/
def buffer.view (b : buffer) : List Byte := b.data.take b.bytes

/-- Work handed to `strand_.post`. -/
inductive Task
  | close
  | on_write (ec : ErrorCode) (bytes_transferred : Nat)
  | complete
  | close_graceful (graceful : Bool)
deriving DecidableEq, Repr

/-- Effects on the collaborators, in the order they happen. -/
inductive Event
  /-- The call `impl().stream_.lowest_layer().close (ec)`. -/
  | close_lowest
  /-- The journal line `what: ec.message()` written by `fail`. -/
  | log (what : String) (ec : ErrorCode)
  /-- The timer armed: `expires_from_now (seconds)` followed by `async_wait`. -/
  | timer_wait (seconds : Nat)
  /-- The call `timer_.cancel`. -/
  | timer_cancel
  /-- The call `async_read` into `prepare (size)`, at least one byte. -/
  | async_read (size : Nat)
  /-- The call `async_write` of the buffered path with its buffer sequence. -/
  | async_write (v : List (List Byte))
  /-- The call `async_write` of the streaming path with `writer->data()`. -/
  | async_write_writer (v : List (List Byte))
  /-- The call `strand_.post`. -/
  | post (t : Task)
  /-- A coroutine running `do_read` spawned on the strand. -/
  | spawn_do_read
  /-- A coroutine running `do_writer` spawned on the strand. -/
  | spawn_do_writer (keep_alive : Bool)
  /-- The hook `do_request` of `Impl`. -/
  | do_request
  /-- The hook `do_close` of `Impl`. -/
  | do_close
  /-- The callback `handler_.onClose (session(), ec)`. -/
  | onClose (ec : ErrorCode)
deriving DecidableEq, Repr

/-- The data members of `BaseHTTPPeer` that the control flow depends on,
and the trace of effects. -/
structure BaseHTTPPeer where
  read_buf_ : List Byte
  wq_ : List buffer
  wq2_ : List buffer
  graceful_ : Bool
  complete_ : Bool
  ec_ : ErrorCode
  bytes_in_ : Nat
  bytes_out_ : Nat
  trace : List Event
deriving DecidableEq, Repr

namespace BaseHTTPPeer

/-- Append one effect to the trace. -/
def emit (s : BaseHTTPPeer) (e : Event) : BaseHTTPPeer :=
  { s with trace := s.trace ++ [e] }

/-- The constructor: the bytes already read by the acceptor are committed to
`read_buf_`; every other member has its default value. -/
def ctor (buffers : List Byte) : BaseHTTPPeer :=
  { read_buf_ := buffers, wq_ := [], wq2_ := [], graceful_ := false,
    complete_ := false, ec_ := ErrorCode.success, bytes_in_ := 0,
    bytes_out_ := 0, trace := [] }

/-- The destructor: hands `ec_` to the handler. -/
def dtor (s : BaseHTTPPeer) : BaseHTTPPeer :=
  s.emit (Event.onClose s.ec_)

/-- The member `close ()` of `Session`. -/
def close (s : BaseHTTPPeer) (on_strand : Bool) : BaseHTTPPeer :=
  if ! on_strand then s.emit (Event.post Task.close)
  else s.emit Event.close_lowest

/-- The member `fail (ec, what)`. -/
def fail (s : BaseHTTPPeer) (ec : ErrorCode) (what : String) : BaseHTTPPeer :=
  if s.ec_ = ErrorCode.success ∧ ec ≠ ErrorCode.operation_aborted then
    (({ s with ec_ := ec }).emit (Event.log what ec)).emit Event.close_lowest
  else s

/-- The member `start_timer`; `arm` is what `expires_from_now` reports. -/
def start_timer (s : BaseHTTPPeer) (arm : ErrorCode) : BaseHTTPPeer :=
  if arm ≠ ErrorCode.success then s.fail arm "start_timer"
  else s.emit (Event.timer_wait timeoutSeconds)

/-- The member `cancel_timer`. -/
def cancel_timer (s : BaseHTTPPeer) : BaseHTTPPeer :=
  s.emit Event.timer_cancel

/-- The member `on_timer (ec)`. -/
def on_timer (s : BaseHTTPPeer) (ec : ErrorCode) : BaseHTTPPeer :=
  if ec = ErrorCode.operation_aborted then s
  else s.fail (if ec = ErrorCode.success then ErrorCode.timed_out else ec) "timer"

/-- The member `on_write (ec, bytes_transferred)`; `arm` is what
`expires_from_now` reports if the timer is started. -/
def on_write (s : BaseHTTPPeer) (ec : ErrorCode) (bytes_transferred : Nat)
    (arm : ErrorCode) : BaseHTTPPeer :=
  let s := s.cancel_timer
  if ec ≠ ErrorCode.success then s.fail ec "write"
  else
    let s := { s with bytes_out_ := (s.bytes_out_ + bytes_transferred) % 2 ^ sizeBits }
    -- `wq2_.clear (); std::swap (wq2_, wq_)` under the lock
    let s := { s with wq2_ := s.wq_, wq_ := [] }
    if s.wq2_ ≠ [] then
      let v := s.wq2_.map buffer.view
      let s := s.start_timer arm
      s.emit (Event.async_write v)
    else if ! s.complete_ then s
    else if s.graceful_ then s.emit Event.do_close
    else s.emit Event.spawn_do_read

/-- The first half of `on_write` called with no error, lines 389 to 398:
the timer is cancelled, the bytes are counted and, under the lock, `wq2_` is
cleared and swapped with `wq_`.  The lock is released at the end of it. -/
def on_write_swap (s : BaseHTTPPeer) (bytes_transferred : Nat) : BaseHTTPPeer :=
  let s := s.cancel_timer
  let s := { s with bytes_out_ := (s.bytes_out_ + bytes_transferred) % 2 ^ sizeBits }
  { s with wq2_ := s.wq_, wq_ := [] }

/-- The second half of `on_write`, lines 399 to 418, run without the lock:
it reads `wq2_` as it is then. -/
def on_write_send (s : BaseHTTPPeer) (arm : ErrorCode) : BaseHTTPPeer :=
  if s.wq2_ ≠ [] then
    let v := s.wq2_.map buffer.view
    let s := s.start_timer arm
    s.emit (Event.async_write v)
  else if ! s.complete_ then s
  else if s.graceful_ then s.emit Event.do_close
  else s.emit Event.spawn_do_read

/-- The locked lambda of `write`: appends the copy to `wq_` and tells whether
`wq_.size () == 1 && wq2_.size () == 0`. -/
def write_enqueue (s : BaseHTTPPeer) (buffer : List Byte) : BaseHTTPPeer × Bool :=
  let s := { s with wq_ := s.wq_ ++ [Ripple.buffer.new buffer] }
  (s, s.wq_.length == 1 && s.wq2_.length == 0)

/-- The member `write (buffer, bytes)`; the list is the memory
`[buffer, buffer+bytes)`. -/
def write (s : BaseHTTPPeer) (buffer : List Byte) (on_strand : Bool)
    (arm : ErrorCode) : BaseHTTPPeer :=
  if buffer.length = 0 then s
  else
    let r := s.write_enqueue buffer
    if r.2 then
      if on_strand then r.1.emit (Event.post (Task.on_write ErrorCode.success 0))
      else r.1.on_write ErrorCode.success 0 arm
    else r.1

/-- The member `write (writer, keep_alive)`. -/
def write_writer (s : BaseHTTPPeer) (keep_alive : Bool) : BaseHTTPPeer :=
  s.emit (Event.spawn_do_writer keep_alive)

/-- The member `complete ()`. -/
def complete (s : BaseHTTPPeer) (on_strand : Bool) : BaseHTTPPeer :=
  if ! on_strand then s.emit (Event.post Task.complete)
  else
    let s := { s with complete_ := true }
    if s.wq_ ≠ [] ∧ s.wq2_ ≠ [] then s
    else s.emit Event.spawn_do_read

/-- The member `close (bool graceful)`. -/
def close_graceful (s : BaseHTTPPeer) (graceful : Bool) (on_strand : Bool) :
    BaseHTTPPeer :=
  if ! on_strand then s.emit (Event.post (Task.close_graceful graceful))
  else
    let s := { s with complete_ := true }
    if graceful then
      let s := { s with graceful_ := true }
      if s.wq_ ≠ [] ∨ s.wq2_ ≠ [] then s
      else s.emit Event.do_close
    else s.emit Event.close_lowest

end BaseHTTPPeer

/-- The protocol parser (`beast::http::parser`), a collaborator: `init` is
the parser constructed over the cleared `message_` and `body_`, `write`
returns the error and the number of bytes used. -/
structure Parser (σ : Type) where
  init : σ
  write : σ → List Byte → ErrorCode × Nat × σ
  write_eof : σ → ErrorCode × σ
  complete : σ → Bool

/-- One completion of the `async_read` in `do_read`: what arming the timer
before it reported, the error of the read and the bytes it delivered
(`bytes_transferred` is their number). -/
structure ReadCompletion where
  arm : ErrorCode
  ec : ErrorCode
  data : List Byte
deriving DecidableEq, Repr

/-- The connection together with the locals of `do_read`. -/
structure ReadLocals (σ : Type) where
  peer : BaseHTTPPeer
  parser : σ
  ec : ErrorCode
  eof : Bool

namespace BaseHTTPPeer

/-- The body of `if (read_buf_.size () == 0)` in `do_read`, with the
completion `r` of the read. -/
def do_read_fill {σ : Type} (l : ReadLocals σ) (r : ReadCompletion) : ReadLocals σ :=
  let s := l.peer.start_timer r.arm
  let s := s.emit (Event.async_read bufferSize)
  let s := s.cancel_timer
  let eof := decide (r.ec = ErrorCode.eof)
  if eof then { l with peer := s, ec := ErrorCode.success, eof := eof }
  else if r.ec = ErrorCode.success then
    { l with
      peer := { s with bytes_in_ := (s.bytes_in_ + r.data.length) % 2 ^ sizeBits,
                       read_buf_ := s.read_buf_ ++ r.data },
      ec := r.ec, eof := eof }
  else { l with peer := s, ec := r.ec, eof := eof }

/-- The first `if (! ec)` block of the loop in `do_read`: feeds the parser. -/
def do_read_parse {σ : Type} (P : Parser σ) (l : ReadLocals σ) : ReadLocals σ :=
  if l.ec = ErrorCode.success then
    if ! l.eof then
      let r := P.write l.parser l.peer.read_buf_
      if r.1 = ErrorCode.success then
        { l with peer := { l.peer with read_buf_ := l.peer.read_buf_.drop r.2.1 },
                 parser := r.2.2, ec := r.1 }
      else { l with parser := r.2.2, ec := r.1 }
    else
      let r := P.write_eof l.parser
      { l with parser := r.2, ec := r.1 }
  else l

/-- The loop `for (;;)` of `do_read`.  The result is `none` when the loop has
not returned within `fuel` rounds and the completions `reads`. -/
def do_read_loop {σ : Type} (P : Parser σ) :
    Nat → ReadLocals σ → List ReadCompletion → Option BaseHTTPPeer
  | 0, _, _ => none
  | fuel + 1, l, reads =>
    let filled : Option (ReadLocals σ × List ReadCompletion) :=
      if l.peer.read_buf_.length = 0 then
        match reads with
        | [] => none
        | r :: rest => some (do_read_fill l r, rest)
      else some (l, reads)
    match filled with
    | none => none
    | some (l, reads) =>
      let l := do_read_parse P l
      if l.ec = ErrorCode.success then
        if P.complete l.parser then some (l.peer.emit Event.do_request)
        else if l.eof then some (l.peer.fail ErrorCode.eof "read")
        else do_read_loop P fuel l reads
      else some (l.peer.fail l.ec "read")

/-- The member `do_read`. -/
def do_read {σ : Type} (P : Parser σ) (fuel : Nat) (s : BaseHTTPPeer)
    (reads : List ReadCompletion) : Option BaseHTTPPeer :=
  do_read_loop P fuel
    { peer := { s with complete_ := false }, parser := P.init,
      ec := ErrorCode.success, eof := false } reads

end BaseHTTPPeer

/-- The streaming producer (`Writer`), a collaborator: `prepare` is called
with the chunk size and the resume callback and tells whether data is ready. -/
structure Writer (ω : Type) where
  prepare : ω → Nat → Bool × ω
  data : ω → List (List Byte)
  consume : ω → Nat → ω
  complete : ω → Bool

/-- The member `do_writer`; `writes` are the completions of its
`async_write` (error and `bytes_transferred`).  The result is `none` when the
loop has not returned within `fuel` rounds and the completions `writes`.
When `prepare` reports false the coroutine returns; the producer calls the
resume callback later, which spawns `do_writer` again. -/
def BaseHTTPPeer.do_writer {ω : Type} (W : Writer ω) :
    Nat → BaseHTTPPeer → ω → Bool → List (ErrorCode × Nat) → Option BaseHTTPPeer
  | 0, _, _, _, _ => none
  | fuel + 1, s, writer, keep_alive, writes =>
    let r := W.prepare writer bufferSize
    if ! r.1 then some s
    else
      match writes with
      | [] => none
      | c :: rest =>
        let s := s.emit (Event.async_write_writer (W.data r.2))
        if c.1 ≠ ErrorCode.success then some (s.fail c.1 "writer")
        else
          let writer := W.consume r.2 c.2
          if W.complete writer then
            if ! keep_alive then some (s.emit Event.do_close)
            else some (s.emit Event.spawn_do_read)
          else BaseHTTPPeer.do_writer W fuel s writer keep_alive rest

/-- A small parser for examples: a message is a line, complete at the first
byte 10; bytes after it are left in the buffer; end of stream is accepted. -/
def lineParser : Parser Bool where
  init := false
  write st buf :=
    if (10 : Byte) ∈ buf then
      (ErrorCode.success, (buf.takeWhile fun c => decide (c ≠ 10)).length + 1, true)
    else (ErrorCode.success, buf.length, st)
  write_eof st := (ErrorCode.success, st)
  complete st := st

/-- A small parser for examples that uses one byte in each call: a message
is complete when the byte 10 has been used. -/
def byteParser : Parser Bool where
  init := false
  write st buf :=
    match buf with
    | [] => (ErrorCode.success, 0, st)
    | c :: _ => (ErrorCode.success, 1, decide (c = 10))
  write_eof st := (ErrorCode.success, st)
  complete st := st

/-- The parser completes a message from the bytes of a buffer alone: fed the
non-empty buffer it reports no error and a number of bytes used, and either
the message is complete, or it is not and the parser completes it from the
rest of the buffer in the same way.  The numbers are the calls of `write`
made and the bytes used in all of them. -/
inductive ParsesBuffered {σ : Type} (P : Parser σ) : σ → List Byte → Nat → Nat → Prop
  | done (p : σ) (buf : List Byte) (used : Nat) (p' : σ) :
      buf ≠ [] → P.write p buf = (ErrorCode.success, used, p') →
      P.complete p' = true → ParsesBuffered P p buf 1 used
  | more (p : σ) (buf : List Byte) (used : Nat) (p' : σ) (rounds total : Nat) :
      buf ≠ [] → P.write p buf = (ErrorCode.success, used, p') →
      P.complete p' = false → ParsesBuffered P p' (buf.drop used) rounds total →
      ParsesBuffered P p buf (rounds + 1) (used + total)

/-! ## Observations on a trace and runs of the buffered write path -/

/-- How often `async_read` has been called. -/
def reads_made (t : List Event) : Nat := t.count (Event.async_read bufferSize)


/-- The buffer sequences handed to `async_write` by the buffered path, in
order. -/
def transportBatches (t : List Event) : List (List (List Byte)) :=
  t.filterMap fun e =>
    match e with
    | Event.async_write v => some v
    | _ => none

/-- The bytes handed to the transport by the buffered path, in order. -/
def transportBytes (t : List Event) : List Byte :=
  (transportBatches t).flatten.flatten

/-- The bytes held by a list of segments, in order. -/
def heldBytes (q : List buffer) : List Byte :=
  (q.map buffer.view).flatten

/-- A handler of the buffered write path run by the strand: a call of
`write (buffer, bytes)` made on the strand, or `on_write` called with no
error.  The strand runs its handlers one at a time, so each is one step. -/
inductive WriteOp
  | write (buffer : List Byte)
  | flushed (bytes_transferred : Nat) (arm : ErrorCode)
deriving DecidableEq, Repr

/-- The connection after one handler of the strand.  A `write` made on the
strand posts its flush and arms no timer, so the last argument plays no
part. -/
def WriteOp.apply (s : BaseHTTPPeer) : WriteOp → BaseHTTPPeer
  | WriteOp.write b => s.write b true ErrorCode.success
  | WriteOp.flushed n arm => s.on_write ErrorCode.success n arm

/-- The connection after a sequence of handlers run by the strand. -/
def runWrites (s : BaseHTTPPeer) (ops : List WriteOp) : BaseHTTPPeer :=
  ops.foldl WriteOp.apply s

/-- The arguments of the `write` calls of a sequence, concatenated in call
order. -/
def writtenBytes : List WriteOp → List Byte
  | [] => []
  | WriteOp.write b :: ops => b ++ writtenBytes ops
  | WriteOp.flushed _ _ :: ops => writtenBytes ops

/-- The connection after a sequence of `fail (ec, what)` calls. -/
def failAll (s : BaseHTTPPeer) (calls : List (ErrorCode × String)) : BaseHTTPPeer :=
  calls.foldl (fun s c => s.fail c.1 c.2) s

/-- The bytes one handler of the strand submits. -/
def WriteOp.bytes : WriteOp → List Byte
  | WriteOp.write b => b
  | WriteOp.flushed _ _ => []

/-- The write-order invariant: what was handed to the transport followed by
what is pending is `w`, and the in-flight list, unless empty, is the batch
handed last. -/
def WriteOrder (s : BaseHTTPPeer) (w : List Byte) : Prop :=
  transportBytes s.trace ++ heldBytes s.wq_ = w
    ∧ (s.wq2_ = [] ∨
        (transportBatches s.trace).getLast? = some (s.wq2_.map buffer.view))

/-- A connection whose only write was made on the strand and whose posted
flush has run: the segment is in flight, nothing is pending. -/
def inFlightExample : BaseHTTPPeer :=
  runWrites (BaseHTTPPeer.ctor [])
    [WriteOp.write [7], WriteOp.flushed 0 ErrorCode.success]

/-- A connection whose only write was made on the strand and whose posted
flush has not run yet: the segment is pending, nothing is in flight. -/
def pendingExample : BaseHTTPPeer :=
  (BaseHTTPPeer.ctor []).write [7] true ErrorCode.success

/-- A connection whose only write has been transmitted: the completion of the
transport write has cancelled the timer, both lists are empty and no
operation is outstanding. -/
def drainedExample : BaseHTTPPeer :=
  runWrites (BaseHTTPPeer.ctor [])
    [WriteOp.write [7], WriteOp.flushed 0 ErrorCode.success,
      WriteOp.flushed 1 ErrorCode.success]

/-- The bytes of the batches whose transport write has completed, on a
connection driven by the strand alone: all the batches handed over, but the
last one while segments are in flight. -/
def completedBytes (s : BaseHTTPPeer) : List Byte :=
  if s.wq2_ = [] then transportBytes s.trace
  else (transportBatches s.trace).dropLast.flatten.flatten

/-- The first error code of a list that is not the cancellation error. -/
def firstFailure (ecs : List ErrorCode) : Option ErrorCode :=
  ecs.find? fun e => decide (e ≠ ErrorCode.operation_aborted)

/-- A connection with the segment `[1, 2]` in flight and the segments `[3]`
and `[4, 5]` written meanwhile, all on the strand. -/
def coalesceExample : BaseHTTPPeer :=
  runWrites (BaseHTTPPeer.ctor [])
    [WriteOp.write [1, 2], WriteOp.flushed 0 ErrorCode.success, WriteOp.write [3],
      WriteOp.write [4, 5]]

/-- A small producer for examples: it holds the bytes still to send, always
has them ready, and is complete when none is left. -/
def chunkWriter : Writer (List Byte) where
  prepare st _ := (true, st)
  data st := [st]
  consume st n := st.drop n
  complete st := st.isEmpty

/-- How often the timer has been armed. -/
def timer_waits (t : List Event) : Nat := t.count (Event.timer_wait timeoutSeconds)

/-- How often the timer has been cancelled. -/
def timer_cancels (t : List Event) : Nat := t.count Event.timer_cancel

/-- How often `write` has posted the flush `on_write (error_code{}, 0)`. -/
def posted_flushes (t : List Event) : Nat :=
  t.count (Event.post (Task.on_write ErrorCode.success 0))

/-- How often the buffered path has called `async_write`. -/
def writes_started (t : List Event) : Nat := (transportBatches t).length

/-- A connection together with what the strand has delivered so far: how many
posted flushes have run and how many transport writes have completed. -/
structure QueueRun where
  peer : BaseHTTPPeer
  flushes_run : Nat
  writes_done : Nat
deriving DecidableEq, Repr

/-- The posted flushes that have not run yet. -/
def QueueRun.outstanding_flushes (q : QueueRun) : Nat :=
  posted_flushes q.peer.trace - q.flushes_run

/-- The transport writes that have not completed yet. -/
def QueueRun.active_writes (q : QueueRun) : Nat :=
  writes_started q.peer.trace - q.writes_done

/-- What the strand can run next on the buffered path: a `write` call made
on the strand, a posted flush, the completion of a transport write without
error.  The strand runs its handlers one at a time, so each is one step. -/
inductive QueueOp
  | write (buffer : List Byte)
  | run_flush (arm : ErrorCode)
  | completed (bytes_transferred : Nat) (arm : ErrorCode)
deriving DecidableEq, Repr

/-- One step; a posted flush runs only if one is outstanding, a completion
is delivered only if a transport write is active. -/
def QueueRun.step (q : QueueRun) : QueueOp → Option QueueRun
  | QueueOp.write b =>
    some { q with peer := q.peer.write b true ErrorCode.success }
  | QueueOp.run_flush arm =>
    if 0 < q.outstanding_flushes then
      some { q with peer := q.peer.on_write ErrorCode.success 0 arm,
                    flushes_run := q.flushes_run + 1 }
    else none
  | QueueOp.completed n arm =>
    if 0 < q.active_writes then
      some { q with peer := q.peer.on_write ErrorCode.success n arm,
                    writes_done := q.writes_done + 1 }
    else none

/-- A sequence of steps; `none` if one of them cannot happen. -/
def QueueRun.run (q : QueueRun) : List QueueOp → Option QueueRun
  | [] => some q
  | op :: ops =>
    match q.step op with
    | none => none
    | some q' => q'.run ops

/-- A fresh connection on which nothing has been delivered. -/
def QueueRun.start (buffers : List Byte) : QueueRun :=
  { peer := BaseHTTPPeer.ctor buffers, flushes_run := 0, writes_done := 0 }

/-- The invariant of the write queue used in the induction: the counters are
consistent, a transport write is active exactly when `wq2_` is non-empty, a
posted flush is outstanding exactly when `wq_` is non-empty and `wq2_` is
empty, and there is never more than one of either. -/
def QueueInv (q : QueueRun) : Prop :=
  q.writes_done ≤ writes_started q.peer.trace
    ∧ q.flushes_run ≤ posted_flushes q.peer.trace
    ∧ (q.peer.wq2_ = [] → q.active_writes = 0)
    ∧ (q.peer.wq2_ ≠ [] → q.active_writes = 1)
    ∧ (q.outstanding_flushes = 0 ∨
        (q.outstanding_flushes = 1 ∧ q.peer.wq_ ≠ [] ∧ q.peer.wq2_ = []))
    ∧ (q.peer.wq_ ≠ [] → q.peer.wq2_ = [] → q.outstanding_flushes = 1)

/-- A run on the strand: two writes, the posted flush, a third write while
the transport write is active, and the completion of that transport write. -/
def queueExampleOps : List QueueOp :=
  [QueueOp.write [1], QueueOp.write [2], QueueOp.run_flush ErrorCode.success,
   QueueOp.write [3], QueueOp.completed 2 ErrorCode.success]

/-- A connection driven by the strand and by another thread.  The flag tells
that the strand is inside the completion handler `on_write`, between the
unlock at line 398 and the test of `wq2_` at line 399. -/
structure RaceRun where
  queue : QueueRun
  strand_at_399 : Bool
deriving DecidableEq, Repr

/-- What can happen next when another thread writes too: the strand runs a
whole handler; the strand runs the completion handler up to the unlock; the
strand runs the rest of that handler; another thread calls `write`, and runs
the flush inline when told to start one (line 483).  Every run built from
these steps is a run of the code; a call off the strand is placed only
between the two halves of a completion handler or between handlers. -/
inductive RaceOp
  | strand (op : QueueOp)
  | completed_swap (bytes_transferred : Nat)
  | strand_send (arm : ErrorCode)
  | write_off_strand (buffer : List Byte) (arm : ErrorCode)
deriving DecidableEq, Repr

/-- One step.  The strand starts a handler only when it is not inside one;
a completion is delivered only if a transport write is active. -/
def RaceRun.step (r : RaceRun) : RaceOp → Option RaceRun
  | RaceOp.strand op =>
    if r.strand_at_399 then none
    else
      match r.queue.step op with
      | none => none
      | some q => some { r with queue := q }
  | RaceOp.completed_swap n =>
    if r.strand_at_399 then none
    else if 0 < r.queue.active_writes then
      some { queue := { r.queue with peer := r.queue.peer.on_write_swap n,
                                     writes_done := r.queue.writes_done + 1 },
             strand_at_399 := true }
    else none
  | RaceOp.strand_send arm =>
    if r.strand_at_399 then
      some { queue := { r.queue with peer := r.queue.peer.on_write_send arm },
             strand_at_399 := false }
    else none
  | RaceOp.write_off_strand b arm =>
    some { r with queue := { r.queue with peer := r.queue.peer.write b false arm } }

/-- A sequence of steps; `none` if one of them cannot happen. -/
def RaceRun.run (r : RaceRun) : List RaceOp → Option RaceRun
  | [] => some r
  | op :: ops =>
    match r.step op with
    | none => none
    | some r' => r'.run ops

/-- A fresh connection, the strand idle. -/
def RaceRun.start (buffers : List Byte) : RaceRun :=
  { queue := QueueRun.start buffers, strand_at_399 := false }

/-- The run that breaks the queue.  `[1]` is written on the strand, the
posted flush runs, the transport write of `[1]` completes and the strand runs
the completion handler up to the unlock; both lists are empty then.  Another
thread calls `write` with `[3]`: it appends, is told to start the flush and,
being off the strand, runs `on_write` itself, which moves `[3]` to `wq2_` and
starts its transport write.  The strand then goes on at line 399, finds
`wq2_` non-empty and starts a transport write of `[3]` too. -/
def racedOps : List RaceOp :=
  [RaceOp.strand (QueueOp.write [1]), RaceOp.strand (QueueOp.run_flush ErrorCode.success),
   RaceOp.completed_swap 1, RaceOp.write_off_strand [3] ErrorCode.success,
   RaceOp.strand_send ErrorCode.success]

/-- The state the raced run ends in. -/
def racedEnd : RaceRun :=
  ((RaceRun.start []).run racedOps).getD (RaceRun.start [])

/-- The raced run followed by the completions of both transport writes of
`[3]`. -/
def racedDrainedOps : List RaceOp :=
  racedOps ++
    [RaceOp.strand (QueueOp.completed 1 ErrorCode.success),
     RaceOp.strand (QueueOp.completed 1 ErrorCode.success)]

/-- The state the raced run ends in when both transport writes have
completed. -/
def racedDrainedEnd : RaceRun :=
  ((RaceRun.start []).run racedDrainedOps).getD (RaceRun.start [])

/-- The state the example run ends in. -/
def queueExampleEnd : QueueRun :=
  ((QueueRun.start []).run queueExampleOps).getD (QueueRun.start [])

/-- How often the lowest layer of the transport has been closed. -/
def closes (t : List Event) : Nat := t.count Event.close_lowest

end Ripple

namespace Ripple

open BaseHTTPPeer

/-! ## Write order -/

theorem on_write_pending (s : BaseHTTPPeer) (n : Nat) (arm : ErrorCode)
    (h : s.wq_ ≠ []) :
    s.on_write ErrorCode.success n arm
      = (({ s.cancel_timer with
            bytes_out_ := (s.bytes_out_ + n) % 2 ^ sizeBits,
            wq2_ := s.wq_, wq_ := [] } : BaseHTTPPeer).start_timer arm).emit
          (Event.async_write (s.wq_.map buffer.view)) := by
  simp [on_write, h, cancel_timer, emit]

theorem on_write_idle (s : BaseHTTPPeer) (n : Nat) (arm : ErrorCode)
    (h : s.wq_ = []) :
    s.on_write ErrorCode.success n arm
      = if s.complete_ = false then
          { s.cancel_timer with
            bytes_out_ := (s.bytes_out_ + n) % 2 ^ sizeBits, wq2_ := [], wq_ := [] }
        else if s.graceful_ = true then
          ({ s.cancel_timer with
            bytes_out_ := (s.bytes_out_ + n) % 2 ^ sizeBits, wq2_ := [], wq_ := [] }
            : BaseHTTPPeer).emit Event.do_close
        else
          ({ s.cancel_timer with
            bytes_out_ := (s.bytes_out_ + n) % 2 ^ sizeBits, wq2_ := [], wq_ := [] }
            : BaseHTTPPeer).emit Event.spawn_do_read := by
  simp [on_write, h, cancel_timer, emit]

theorem transportBatches_append (a b : List Event) :
    transportBatches (a ++ b) = transportBatches a ++ transportBatches b := by
  simp [transportBatches, List.filterMap_append]

theorem fail_queues (s : BaseHTTPPeer) (ec : ErrorCode) (what : String) :
    (s.fail ec what).wq_ = s.wq_ ∧ (s.fail ec what).wq2_ = s.wq2_ := by
  unfold BaseHTTPPeer.fail
  split <;> simp [emit]

theorem transportBatches_fail (s : BaseHTTPPeer) (ec : ErrorCode) (what : String) :
    transportBatches (s.fail ec what).trace = transportBatches s.trace := by
  unfold BaseHTTPPeer.fail
  split <;> simp [emit, transportBatches, List.filterMap_append]

theorem start_timer_queues (s : BaseHTTPPeer) (arm : ErrorCode) :
    (s.start_timer arm).wq_ = s.wq_ ∧ (s.start_timer arm).wq2_ = s.wq2_ := by
  unfold BaseHTTPPeer.start_timer
  split
  · exact fail_queues s arm _
  · simp [emit]

theorem transportBatches_start_timer (s : BaseHTTPPeer) (arm : ErrorCode) :
    transportBatches (s.start_timer arm).trace = transportBatches s.trace := by
  unfold BaseHTTPPeer.start_timer
  split
  · exact transportBatches_fail s arm _
  · simp [emit, transportBatches, List.filterMap_append]

/-- A successful completion with segments pending hands exactly those
segments to the transport as one batch and makes them the in-flight list. -/
theorem on_write_success_pending (s : BaseHTTPPeer) (n : Nat) (arm : ErrorCode)
    (h : s.wq_ ≠ []) :
    transportBatches (s.on_write ErrorCode.success n arm).trace
        = transportBatches s.trace ++ [s.wq_.map buffer.view]
      ∧ (s.on_write ErrorCode.success n arm).wq_ = []
      ∧ (s.on_write ErrorCode.success n arm).wq2_ = s.wq_ := by
  rw [on_write_pending s n arm h]
  refine ⟨?_, ?_, ?_⟩
  · simp only [emit, transportBatches_append, transportBatches_start_timer]
    simp [cancel_timer, emit, transportBatches, List.filterMap_append]
  · simp [emit, (start_timer_queues _ _).1]
  · simp [emit, (start_timer_queues _ _).2]

/-- A successful completion with nothing pending hands nothing to the
transport and leaves both lists empty. -/
theorem on_write_success_idle (s : BaseHTTPPeer) (n : Nat) (arm : ErrorCode)
    (h : s.wq_ = []) :
    transportBatches (s.on_write ErrorCode.success n arm).trace
        = transportBatches s.trace
      ∧ (s.on_write ErrorCode.success n arm).wq_ = []
      ∧ (s.on_write ErrorCode.success n arm).wq2_ = [] := by
  rw [on_write_idle s n arm h]
  refine ⟨?_, ?_, ?_⟩ <;>
    (split_ifs <;> simp [cancel_timer, emit, transportBatches, List.filterMap_append])

/-- What `write` with a non-empty argument does to the queue and to the
batches handed to the transport. -/
theorem write_effect (s : BaseHTTPPeer) (b : List Byte) (on_strand : Bool)
    (arm : ErrorCode) (hb : b ≠ []) :
    (transportBatches (s.write b on_strand arm).trace = transportBatches s.trace
        ∧ (s.write b on_strand arm).wq_ = s.wq_ ++ [buffer.new b]
        ∧ (s.write b on_strand arm).wq2_ = s.wq2_)
      ∨ (s.wq_ = [] ∧ s.wq2_ = []
        ∧ transportBatches (s.write b on_strand arm).trace
            = transportBatches s.trace ++ [[(buffer.new b).view]]
        ∧ (s.write b on_strand arm).wq_ = []
        ∧ (s.write b on_strand arm).wq2_ = [buffer.new b]) := by
  have hlen : b.length ≠ 0 := by simpa using hb
  unfold BaseHTTPPeer.write
  rw [if_neg hlen]
  by_cases ht : (s.write_enqueue b).2 = true
  · simp only [ht, if_true]
    have hq : s.wq_ = [] ∧ s.wq2_ = [] := by
      simp [write_enqueue] at ht
      exact ⟨by simpa using ht.1, by simpa using ht.2⟩
    cases on_strand
    · right
      have hne : (s.write_enqueue b).1.wq_ ≠ [] := by simp [write_enqueue]
      have := on_write_success_pending (s.write_enqueue b).1 0 arm hne
      simp only [Bool.false_eq_true, if_false]
      refine ⟨hq.1, hq.2, ?_, this.2.1, ?_⟩
      · rw [this.1]; simp [write_enqueue, hq.1]
      · rw [this.2.2]; simp [write_enqueue, hq.1]
    · left
      simp [write_enqueue, emit, transportBatches, List.filterMap_append]
  · left
    simp only [ht, if_false]
    simp [write_enqueue, Bool.false_eq_true]

theorem view_new (b : List Byte) : (buffer.new b).view = b := by
  simp [buffer.view, buffer.new]

theorem writeOrder_apply (s : BaseHTTPPeer) (w : List Byte) (op : WriteOp)
    (h : WriteOrder s w) : WriteOrder (op.apply s) (w ++ op.bytes) := by
  obtain ⟨hw, hl⟩ := h
  cases op with
  | write b =>
    simp only [WriteOp.apply, WriteOp.bytes]
    by_cases hb : b = []
    · subst hb
      have : s.write [] true ErrorCode.success = s := by simp [BaseHTTPPeer.write]
      rw [this]
      exact ⟨by simpa using hw, hl⟩
    · rcases write_effect s b true ErrorCode.success hb with
        ⟨h1, h2, h3⟩ | ⟨h0, h0', h1, h2, h3⟩
      · refine ⟨?_, ?_⟩
        · rw [transportBytes, h1, h2, ← hw]
          simp [transportBytes, heldBytes, view_new]
        · rw [h1, h3]; exact hl
      · refine ⟨?_, ?_⟩
        · rw [transportBytes, h1, h2, ← hw, h0]
          simp [transportBytes, heldBytes, view_new]
        · right
          rw [h1, h3]
          simp
  | flushed n arm =>
    simp only [WriteOp.apply, WriteOp.bytes, List.append_nil]
    by_cases hq : s.wq_ = []
    · obtain ⟨h1, h2, h3⟩ := on_write_success_idle s n arm hq
      refine ⟨?_, Or.inl h3⟩
      rw [transportBytes, h1, h2, ← hw, hq]
      simp [transportBytes]
    · obtain ⟨h1, h2, h3⟩ := on_write_success_pending s n arm hq
      refine ⟨?_, Or.inr ?_⟩
      · rw [transportBytes, h1, h2, ← hw]
        simp [transportBytes, heldBytes]
      · rw [h1, h3]; simp

theorem writeOrder_run (ops : List WriteOp) (s : BaseHTTPPeer) (w : List Byte)
    (h : WriteOrder s w) : WriteOrder (runWrites s ops) (w ++ writtenBytes ops) := by
  induction ops generalizing s w with
  | nil => simpa [runWrites, writtenBytes] using h
  | cons op ops ih =>
    have h1 := ih (op.apply s) (w ++ op.bytes) (writeOrder_apply s w op h)
    cases op <;> simpa [runWrites, writtenBytes, WriteOp.bytes, List.append_assoc] using h1

/-- Write order on the strand: for every sequence of `write` calls made on
the strand and successful runs of `on_write` on a fresh connection, the
batches handed to the transport followed by the bytes pending in `wq_` are
the written arguments in call order; `wq2_` is empty or is the batch handed
last, so the completed batches followed by `wq2_` and `wq_` are the written
arguments too; once `wq_` is empty the transport has been handed exactly the
written bytes. -/
theorem write_order_on_strand (buffers : List Byte) (ops : List WriteOp) :
    transportBytes (runWrites (ctor buffers) ops).trace
        ++ heldBytes (runWrites (ctor buffers) ops).wq_ = writtenBytes ops
      ∧ ((runWrites (ctor buffers) ops).wq2_ = [] ∨
          (transportBatches (runWrites (ctor buffers) ops).trace).getLast?
            = some ((runWrites (ctor buffers) ops).wq2_.map buffer.view))
      ∧ completedBytes (runWrites (ctor buffers) ops)
          ++ heldBytes (runWrites (ctor buffers) ops).wq2_
          ++ heldBytes (runWrites (ctor buffers) ops).wq_ = writtenBytes ops
      ∧ ((runWrites (ctor buffers) ops).wq_ = [] →
          transportBytes (runWrites (ctor buffers) ops).trace = writtenBytes ops) := by
  have h0 : WriteOrder (ctor buffers) [] := by
    simp [WriteOrder, ctor, transportBytes, transportBatches, heldBytes]
  have h := writeOrder_run ops (ctor buffers) [] h0
  simp only [List.nil_append] at h
  refine ⟨h.1, h.2, ?_, fun hq => ?_⟩
  · by_cases hq : (runWrites (ctor buffers) ops).wq2_ = []
    · rw [completedBytes, if_pos hq, hq]
      simpa [heldBytes] using h.1
    · rw [completedBytes, if_neg hq, ← h.1]
      have hl : (transportBatches (runWrites (ctor buffers) ops).trace).getLast?
          = some ((runWrites (ctor buffers) ops).wq2_.map buffer.view) :=
        h.2.resolve_left hq
      have hd := List.dropLast_append_getLast? _ hl
      conv_rhs => rw [transportBytes, ← hd]
      simp [heldBytes]
  · have := h.1
    rw [hq] at this
    simpa [heldBytes] using this

/-- The two halves of `on_write` make up `on_write`. -/
theorem on_write_split (s : BaseHTTPPeer) (n : Nat) (arm : ErrorCode) :
    s.on_write ErrorCode.success n arm = (s.on_write_swap n).on_write_send arm := by
  simp [BaseHTTPPeer.on_write, on_write_swap, on_write_send]

/-- The two halves of the completion handler, run by the strand one after
the other, are the strand running the handler as a whole. -/
theorem completed_split (r : RaceRun) (n : Nat) (arm : ErrorCode) :
    (match r.step (RaceOp.completed_swap n) with
      | none => none
      | some r' => r'.step (RaceOp.strand_send arm))
      = r.step (RaceOp.strand (QueueOp.completed n arm)) := by
  cases hp : r.strand_at_399
  · by_cases ha : 0 < r.queue.active_writes
    · simp [RaceRun.step, QueueRun.step, hp, ha, on_write_split]
    · simp [RaceRun.step, QueueRun.step, hp, ha]
  · simp [RaceRun.step, hp]

/-- C1, the code at the failing input: `[1]` is written on the strand and
transmitted; while the strand is between the unlock and the test of `wq2_`
in the completion handler, another thread writes `[3]` and, being off the
strand, runs the flush itself; the strand then starts a second transport
write of `[3]`.  When both have completed, both lists are empty and the
transport has been handed `[1, 3, 3]` for the writes `[1]` and `[3]`. -/
theorem write_order_broken_by_inline_flush :
    (RaceRun.start []).run racedDrainedOps = some racedDrainedEnd
      ∧ racedDrainedEnd.queue.peer.wq_ = [] ∧ racedDrainedEnd.queue.peer.wq2_ = []
      ∧ racedDrainedEnd.queue.active_writes = 0
      ∧ transportBatches racedDrainedEnd.queue.peer.trace = [[[1]], [[3]], [[3]]]
      ∧ transportBytes racedDrainedEnd.queue.peer.trace = [1, 3, 3]
      ∧ transportBytes racedDrainedEnd.queue.peer.trace ≠ [1] ++ [3] := by
  decide

/-! ## `complete ()` -/

/-- C2, the code at the failing inputs: with a segment in flight and nothing
pending, and with a segment pending and nothing in flight, `complete ()` run
on the strand spawns `do_read` at once. -/
theorem complete_spawns_read_before_drain :
    inFlightExample.wq2_ ≠ [] ∧ inFlightExample.wq_ = []
      ∧ (inFlightExample.complete true).trace
          = inFlightExample.trace ++ [Event.spawn_do_read]
      ∧ pendingExample.wq_ ≠ [] ∧ pendingExample.wq2_ = []
      ∧ (pendingExample.complete true).trace
          = pendingExample.trace ++ [Event.spawn_do_read] := by
  decide

/-- What `complete ()` does on the strand: it defers only when both lists are
non-empty, and spawns `do_read` in every other case. -/
theorem complete_on_strand (s : BaseHTTPPeer) :
    (s.wq_ ≠ [] ∧ s.wq2_ ≠ [] →
        s.complete true = { s with complete_ := true })
      ∧ (s.wq_ = [] ∨ s.wq2_ = [] →
        s.complete true
          = ({ s with complete_ := true } : BaseHTTPPeer).emit Event.spawn_do_read) := by
  constructor
  · intro h
    simp [BaseHTTPPeer.complete, h.1, h.2]
  · intro h
    have : ¬ (s.wq_ ≠ [] ∧ s.wq2_ ≠ []) := by
      rintro ⟨h1, h2⟩
      exact h.elim h1 h2
    simp only [BaseHTTPPeer.complete, Bool.not_true, Bool.false_eq_true, if_false]
    rw [if_neg this]

/-! ## `fail` -/

theorem fail_recorded (s : BaseHTTPPeer) (ec : ErrorCode) (what : String)
    (h : s.ec_ ≠ ErrorCode.success) : s.fail ec what = s := by
  simp [BaseHTTPPeer.fail, h]

theorem fail_aborted (s : BaseHTTPPeer) (what : String) :
    s.fail ErrorCode.operation_aborted what = s := by
  simp [BaseHTTPPeer.fail]

theorem fail_first (s : BaseHTTPPeer) (ec : ErrorCode) (what : String)
    (h : s.ec_ = ErrorCode.success) (hec : ec ≠ ErrorCode.operation_aborted) :
    s.fail ec what
      = (({ s with ec_ := ec } : BaseHTTPPeer).emit (Event.log what ec)).emit
          Event.close_lowest := by
  simp [BaseHTTPPeer.fail, h, hec]

theorem failAll_recorded (calls : List (ErrorCode × String)) (s : BaseHTTPPeer)
    (h : s.ec_ ≠ ErrorCode.success) : failAll s calls = s := by
  induction calls generalizing s with
  | nil => rfl
  | cons c calls ih =>
    simp only [failAll, List.foldl_cons]
    rw [fail_recorded s c.1 c.2 h]
    exact ih s h

theorem failAll_aborted (calls : List (ErrorCode × String)) (s : BaseHTTPPeer)
    (h : ∀ c ∈ calls, c.1 = ErrorCode.operation_aborted) : failAll s calls = s := by
  induction calls generalizing s with
  | nil => rfl
  | cons c calls ih =>
    simp only [failAll, List.foldl_cons]
    rw [h c (List.mem_cons_self _ _), fail_aborted]
    exact ih s fun x hx => h x (List.mem_cons_of_mem _ hx)

theorem failAll_ec (calls : List (ErrorCode × String)) (s : BaseHTTPPeer)
    (h0 : s.ec_ = ErrorCode.success)
    (hreal : ∀ c ∈ calls, c.1 ≠ ErrorCode.success) :
    (failAll s calls).ec_
      = (firstFailure (calls.map Prod.fst)).getD ErrorCode.success := by
  induction calls generalizing s with
  | nil => simpa [failAll, firstFailure] using h0
  | cons c calls ih =>
    have hreal' : ∀ x ∈ calls, x.1 ≠ ErrorCode.success :=
      fun x hx => hreal x (List.mem_cons_of_mem _ hx)
    by_cases hc : c.1 = ErrorCode.operation_aborted
    · have : failAll s (c :: calls) = failAll s calls := by
        simp only [failAll, List.foldl_cons]
        rw [hc, fail_aborted]
      rw [this, ih s h0 hreal']
      simp [firstFailure, hc]
    · have : failAll s (c :: calls) = failAll (s.fail c.1 c.2) calls := by
        simp only [failAll, List.foldl_cons]
      have hs : c.1 ≠ ErrorCode.success := hreal c (List.mem_cons_self _ _)
      have hf : (s.fail c.1 c.2).ec_ ≠ ErrorCode.success := by
        rw [fail_first s c.1 c.2 h0 hc]
        simpa [emit] using hs
      rw [this, failAll_recorded calls _ hf, fail_first s c.1 c.2 h0 hc]
      simp [firstFailure, hc, emit]

theorem firstFailure_cons_aborted (ecs : List ErrorCode) :
    firstFailure (ErrorCode.operation_aborted :: ecs) = firstFailure ecs := by
  simp [firstFailure, List.find?_cons]

theorem firstFailure_cons_other (e : ErrorCode) (ecs : List ErrorCode)
    (h : e ≠ ErrorCode.operation_aborted) :
    firstFailure (e :: ecs) = some e := by
  simp [firstFailure, List.find?_cons, h]

theorem failAll_closes (calls : List (ErrorCode × String)) (s : BaseHTTPPeer)
    (h0 : s.ec_ = ErrorCode.success)
    (hreal : ∀ c ∈ calls, c.1 ≠ ErrorCode.success) :
    closes (failAll s calls).trace
      = closes s.trace
        + if (firstFailure (calls.map Prod.fst)).isSome then 1 else 0 := by
  induction calls generalizing s with
  | nil => simp [failAll, firstFailure]
  | cons c calls ih =>
    have hreal' : ∀ x ∈ calls, x.1 ≠ ErrorCode.success :=
      fun x hx => hreal x (List.mem_cons_of_mem _ hx)
    by_cases hc : c.1 = ErrorCode.operation_aborted
    · have : failAll s (c :: calls) = failAll s calls := by
        simp only [failAll, List.foldl_cons]
        rw [hc, fail_aborted]
      rw [this, ih s h0 hreal', List.map_cons, hc, firstFailure_cons_aborted]
    · have : failAll s (c :: calls) = failAll (s.fail c.1 c.2) calls := by
        simp only [failAll, List.foldl_cons]
      have hs : c.1 ≠ ErrorCode.success := hreal c (List.mem_cons_self _ _)
      have hf : (s.fail c.1 c.2).ec_ ≠ ErrorCode.success := by
        rw [fail_first s c.1 c.2 h0 hc]
        simpa [emit] using hs
      rw [this, failAll_recorded calls _ hf, fail_first s c.1 c.2 h0 hc,
        List.map_cons, firstFailure_cons_other _ _ hc]
      simp [closes, emit, List.count_append]

theorem failAll_ec_set (pre : List (ErrorCode × String)) (s : BaseHTTPPeer)
    (h0 : s.ec_ = ErrorCode.success)
    (hreal : ∀ c ∈ pre, c.1 ≠ ErrorCode.success)
    (hx : ¬ ∀ x ∈ pre, x.1 = ErrorCode.operation_aborted) :
    (failAll s pre).ec_ ≠ ErrorCode.success := by
  rw [failAll_ec pre s h0 hreal]
  push_neg at hx
  obtain ⟨x, hxm, hxa⟩ := hx
  cases hf : firstFailure (pre.map Prod.fst) with
  | none =>
    exfalso
    simp only [firstFailure, List.find?_eq_none] at hf
    have := hf x.1 (List.mem_map_of_mem _ hxm)
    simp [hxa] at this
  | some e =>
    simp only [Option.getD_some]
    have hm : e ∈ pre.map Prod.fst := List.mem_of_find?_eq_some hf
    obtain ⟨y, hy, rfl⟩ := List.mem_map.1 hm
    exact hreal y hy

/-- C3: on a connection whose `ec_` is unset, after any sequence of `fail`
calls with real error codes `ec_` is the first code that is not
`operation_aborted` (unset if there is none); the call with that code, and no
other call, changes the connection: it records the code, writes the journal
line and closes the lowest layer, so the sequence closes it at most once. -/
theorem first_failure_wins (s : BaseHTTPPeer) (calls : List (ErrorCode × String))
    (h0 : s.ec_ = ErrorCode.success)
    (hreal : ∀ c ∈ calls, c.1 ≠ ErrorCode.success) :
    (failAll s calls).ec_
        = (firstFailure (calls.map Prod.fst)).getD ErrorCode.success
      ∧ (∀ pre c post, calls = pre ++ c :: post →
          ((∀ x ∈ pre, x.1 = ErrorCode.operation_aborted)
              ∧ c.1 ≠ ErrorCode.operation_aborted →
            ((failAll s pre).fail c.1 c.2).ec_ = c.1
              ∧ ((failAll s pre).fail c.1 c.2).trace
                = (failAll s pre).trace ++ [Event.log c.2 c.1, Event.close_lowest])
          ∧ (¬ ((∀ x ∈ pre, x.1 = ErrorCode.operation_aborted)
              ∧ c.1 ≠ ErrorCode.operation_aborted) →
            (failAll s pre).fail c.1 c.2 = failAll s pre))
      ∧ closes (failAll s calls).trace
        = closes s.trace
          + if (firstFailure (calls.map Prod.fst)).isSome then 1 else 0 := by
  refine ⟨failAll_ec calls s h0 hreal, ?_, failAll_closes calls s h0 hreal⟩
  intro pre c post hcalls
  have hpre : ∀ x ∈ pre, x.1 ≠ ErrorCode.success := fun x hx =>
    hreal x (by rw [hcalls]; exact List.mem_append_left _ hx)
  constructor
  · rintro ⟨hall, hc⟩
    rw [failAll_aborted pre s hall, fail_first s c.1 c.2 h0 hc]
    simp [emit]
  · intro hnot
    by_cases hall : ∀ x ∈ pre, x.1 = ErrorCode.operation_aborted
    · have hc : c.1 = ErrorCode.operation_aborted := by
        by_contra hc
        exact hnot ⟨hall, hc⟩
      rw [hc, fail_aborted]
    · exact fail_recorded _ _ _ (failAll_ec_set pre s h0 hpre hall)

theorem first_failure_wins_witness :
    (failAll (ctor []) [(ErrorCode.operation_aborted, "write"),
        (ErrorCode.eof, "read"), (ErrorCode.timed_out, "timer")]).ec_
        = ErrorCode.eof
      ∧ closes (failAll (ctor []) [(ErrorCode.operation_aborted, "write"),
        (ErrorCode.eof, "read"), (ErrorCode.timed_out, "timer")]).trace = 1 := by
  have h := first_failure_wins (ctor [])
    [(ErrorCode.operation_aborted, "write"), (ErrorCode.eof, "read"),
      (ErrorCode.timed_out, "timer")] rfl (by decide)
  exact ⟨h.1.trans (by decide), h.2.2.trans (by decide)⟩

/-! ## Graceful close -/

/-- C5, as stated, fails: after the transport write has completed and
cancelled the timer, a timer callback with the expired status records
`timed_out` and closes the lowest layer. -/
theorem timer_after_cancel_records_timeout :
    drainedExample.ec_ = ErrorCode.success
      ∧ drainedExample.wq_ = [] ∧ drainedExample.wq2_ = []
      ∧ drainedExample.trace.getLast? = some Event.timer_cancel
      ∧ (drainedExample.on_timer ErrorCode.success).ec_ = ErrorCode.timed_out
      ∧ closes (drainedExample.on_timer ErrorCode.success).trace
        = closes drainedExample.trace + 1 := by
  decide

/-- C5 (amended): after `cancel_timer` on a connection with no recorded
failure, a timer callback with the cancelled status changes nothing: `ec_`
stays unset and the lowest layer is not closed. -/
theorem cancelled_timer_is_ignored (s : BaseHTTPPeer)
    (h0 : s.ec_ = ErrorCode.success) :
    s.cancel_timer.on_timer ErrorCode.operation_aborted = s.cancel_timer
      ∧ (s.cancel_timer.on_timer ErrorCode.operation_aborted).ec_ = ErrorCode.success
      ∧ closes (s.cancel_timer.on_timer ErrorCode.operation_aborted).trace
        = closes s.trace := by
  have h : s.cancel_timer.on_timer ErrorCode.operation_aborted = s.cancel_timer := by
    simp [BaseHTTPPeer.on_timer]
  rw [h]
  exact ⟨rfl, by simpa [cancel_timer, emit] using h0,
    by simp [cancel_timer, emit, closes, List.count_append]⟩

theorem cancelled_timer_is_ignored_witness :
    (inFlightExample.cancel_timer.on_timer ErrorCode.operation_aborted).ec_
        = ErrorCode.success
      ∧ closes (inFlightExample.cancel_timer.on_timer ErrorCode.operation_aborted).trace
        = closes inFlightExample.trace :=
  (cancelled_timer_is_ignored inFlightExample (by decide)).2

/-- C10: on a connection with no recorded failure a timer callback with the
expired status is `fail (timed_out, "timer")`: it records `timed_out`, writes
the journal line and closes the lowest layer; no later `fail` call changes the
connection, and the destructor hands `timed_out` to `onClose`.  A callback
with the cancelled status changes nothing. -/
theorem genuine_timeout (s : BaseHTTPPeer) (calls : List (ErrorCode × String))
    (h0 : s.ec_ = ErrorCode.success) :
    s.on_timer ErrorCode.success = s.fail ErrorCode.timed_out "timer"
      ∧ (s.on_timer ErrorCode.success).ec_ = ErrorCode.timed_out
      ∧ (s.on_timer ErrorCode.success).trace
        = s.trace ++ [Event.log "timer" ErrorCode.timed_out, Event.close_lowest]
      ∧ failAll (s.on_timer ErrorCode.success) calls = s.on_timer ErrorCode.success
      ∧ (failAll (s.on_timer ErrorCode.success) calls).dtor.trace
        = (s.on_timer ErrorCode.success).trace ++ [Event.onClose ErrorCode.timed_out]
      ∧ s.on_timer ErrorCode.operation_aborted = s := by
  have h1 : s.on_timer ErrorCode.success = s.fail ErrorCode.timed_out "timer" := by
    simp [BaseHTTPPeer.on_timer]
  have h2 : s.fail ErrorCode.timed_out "timer"
      = (({ s with ec_ := ErrorCode.timed_out } : BaseHTTPPeer).emit
          (Event.log "timer" ErrorCode.timed_out)).emit Event.close_lowest :=
    fail_first s _ _ h0 (by decide)
  have h3 : (s.on_timer ErrorCode.success).ec_ = ErrorCode.timed_out := by
    rw [h1, h2]; simp [emit]
  have h4 : failAll (s.on_timer ErrorCode.success) calls = s.on_timer ErrorCode.success :=
    failAll_recorded calls _ (by rw [h3]; decide)
  refine ⟨h1, h3, ?_, h4, ?_, by simp [BaseHTTPPeer.on_timer]⟩
  · rw [h1, h2]; simp [emit]
  · rw [h4]
    simp [BaseHTTPPeer.dtor, emit, h3]

theorem genuine_timeout_witness :
    ((ctor []).on_timer ErrorCode.success).trace
        = [Event.log "timer" ErrorCode.timed_out, Event.close_lowest]
      ∧ (failAll ((ctor []).on_timer ErrorCode.success)
          [(ErrorCode.operation_aborted, "read"), (ErrorCode.eof, "read")]).dtor.trace
        = [Event.log "timer" ErrorCode.timed_out, Event.close_lowest,
            Event.onClose ErrorCode.timed_out] := by
  have h := genuine_timeout (ctor [])
    [(ErrorCode.operation_aborted, "read"), (ErrorCode.eof, "read")] rfl
  exact ⟨h.2.2.1, h.2.2.2.2.1.trans (by rw [h.2.2.1]; rfl)⟩

/-! ## `write (buffer, bytes)` -/

/-- C6, the code at the failing input: called off the strand on an idle
connection, `write` runs `on_write` inline (the queue swap and the transport
write happen in the caller) and posts nothing; called on the strand it posts
`on_write` and runs nothing inline. -/
theorem write_marshaling_is_reversed :
    ((ctor []).write [7] false ErrorCode.success).trace
        = [Event.timer_cancel, Event.timer_wait timeoutSeconds, Event.async_write [[7]]]
      ∧ ((ctor []).write [7] false ErrorCode.success).wq2_ = [buffer.new [7]]
      ∧ ((ctor []).write [7] false ErrorCode.success).wq_ = []
      ∧ ((ctor []).write [7] true ErrorCode.success).trace
        = [Event.post (Task.on_write ErrorCode.success 0)]
      ∧ ((ctor []).write [7] true ErrorCode.success).wq2_ = []
      ∧ ((ctor []).write [7] true ErrorCode.success).wq_ = [buffer.new [7]] := by
  decide

/-- How `write` starts the flush when the enqueue step asks for one: inline
off the strand, posted on the strand. -/
theorem write_trigger (s : BaseHTTPPeer) (b : List Byte) (arm : ErrorCode)
    (hb : b ≠ []) (h1 : s.wq_ = []) (h2 : s.wq2_ = []) :
    s.write b false arm
        = ({ s with wq_ := [buffer.new b] } : BaseHTTPPeer).on_write ErrorCode.success 0 arm
      ∧ s.write b true arm
        = ({ s with wq_ := [buffer.new b] } : BaseHTTPPeer).emit
            (Event.post (Task.on_write ErrorCode.success 0)) := by
  have hlen : b.length ≠ 0 := by simpa using hb
  constructor <;> simp [BaseHTTPPeer.write, write_enqueue, hb, h1, h2]

/-- C7: `write` with no bytes changes nothing.  With at least one byte the
enqueue step appends one segment holding the argument, of the argument's
length and with `used` 0, to the end of `wq_` and changes nothing else; it
asks for a flush exactly when `wq_` then has one element and `wq2_` is empty;
`write` starts a flush (posted or inline) exactly when it is asked for. -/
theorem write_enqueue_postcondition (s : BaseHTTPPeer) (b : List Byte)
    (on_strand : Bool) (arm : ErrorCode) :
    (b.length = 0 → s.write b on_strand arm = s)
      ∧ (0 < b.length →
        (s.write_enqueue b).1
            = { s with wq_ := s.wq_ ++ [{ data := b, bytes := b.length, used := 0 }] }
          ∧ ((s.write_enqueue b).2 = true ↔
              (s.write_enqueue b).1.wq_.length = 1 ∧ (s.write_enqueue b).1.wq2_ = [])
          ∧ ((s.write_enqueue b).2 = false →
              s.write b on_strand arm = (s.write_enqueue b).1)
          ∧ ((s.write_enqueue b).2 = true →
              s.write b on_strand arm
                = if on_strand then
                    (s.write_enqueue b).1.emit
                      (Event.post (Task.on_write ErrorCode.success 0))
                  else (s.write_enqueue b).1.on_write ErrorCode.success 0 arm)) := by
  constructor
  · intro h
    simp [BaseHTTPPeer.write, h]
  · intro h
    have hlen : b.length ≠ 0 := Nat.pos_iff_ne_zero.1 h
    refine ⟨rfl, ?_, ?_, ?_⟩
    · simp [write_enqueue]
    · intro ht
      simp [BaseHTTPPeer.write, hlen, ht]
    · intro ht
      simp [BaseHTTPPeer.write, hlen, ht]

theorem write_enqueue_postcondition_witness :
    (inFlightExample.write [] true ErrorCode.success = inFlightExample)
      ∧ (inFlightExample.write [8, 9] true ErrorCode.success).wq_
        = [{ data := [8, 9], bytes := 2, used := 0 }]
      ∧ (inFlightExample.write [8, 9] true ErrorCode.success).trace
        = inFlightExample.trace := by
  have h := write_enqueue_postcondition inFlightExample [8, 9] true ErrorCode.success
  have h' := h.2 (by decide)
  refine ⟨by decide, ?_, ?_⟩
  · rw [h'.2.2.1 (by decide), h'.1]; decide
  · rw [h'.2.2.1 (by decide), h'.1]


/-! ## `do_read` -/

/-- One round of the loop that starts with bytes in the read buffer, from
which the parser completes the message: the request is dispatched, nothing
is read and the timer is not touched. -/
theorem do_read_loop_buffered {σ : Type} (P : Parser σ) (fuel : Nat)
    (l : ReadLocals σ) (reads : List ReadCompletion) (used : Nat) (p' : σ)
    (hbuf : l.peer.read_buf_ ≠ []) (hec : l.ec = ErrorCode.success)
    (heof : l.eof = false)
    (hw : P.write l.parser l.peer.read_buf_ = (ErrorCode.success, used, p'))
    (hc : P.complete p' = true) :
    do_read_loop P (fuel + 1) l reads
      = some (({ l.peer with read_buf_ := l.peer.read_buf_.drop used }
          : BaseHTTPPeer).emit Event.do_request) := by
  have hlen : l.peer.read_buf_.length ≠ 0 := by simpa using hbuf
  simp [do_read_loop, do_read_parse, hlen, hec, heof, hw, hc]

/-- One round of the loop that starts with bytes in the read buffer, of which
the parser uses some without completing the message and without error: the
loop goes on with the parser's new state and the rest of the buffer; nothing
is read and the timer is not touched. -/
theorem do_read_loop_buffered_more {σ : Type} (P : Parser σ) (fuel : Nat)
    (l : ReadLocals σ) (reads : List ReadCompletion) (used : Nat) (p' : σ)
    (hbuf : l.peer.read_buf_ ≠ []) (hec : l.ec = ErrorCode.success)
    (heof : l.eof = false)
    (hw : P.write l.parser l.peer.read_buf_ = (ErrorCode.success, used, p'))
    (hc : P.complete p' = false) :
    do_read_loop P (fuel + 1) l reads
      = do_read_loop P fuel
          { l with
            peer := { l.peer with read_buf_ := l.peer.read_buf_.drop used },
            parser := p' } reads := by
  have hlen : l.peer.read_buf_.length ≠ 0 := by simpa using hbuf
  simp [do_read_loop, do_read_parse, hlen, hec, heof, hw, hc]

/-- The loop entered with bytes in the read buffer from which the parser
completes the message: after as many rounds as the parser needs calls the
request is dispatched; the buffer has lost the bytes used and nothing else
has changed. -/
theorem do_read_loop_buffered_rounds {σ : Type} (P : Parser σ)
    (reads : List ReadCompletion) (p : σ) (buf : List Byte) (rounds total : Nat)
    (h : ParsesBuffered P p buf rounds total) :
    ∀ (l : ReadLocals σ) (fuel : Nat), l.parser = p → l.peer.read_buf_ = buf →
      l.ec = ErrorCode.success → l.eof = false → rounds ≤ fuel →
      do_read_loop P fuel l reads
        = some (({ l.peer with read_buf_ := buf.drop total } : BaseHTTPPeer).emit
            Event.do_request) := by
  induction h with
  | done p buf used p' hbuf hw hc =>
    intro l fuel hp hb hec heof hf
    obtain ⟨f, rfl⟩ : ∃ f, fuel = f + 1 := ⟨fuel - 1, by omega⟩
    subst hp hb
    exact do_read_loop_buffered P f l reads used p' hbuf hec heof hw hc
  | more p buf used p' rounds total hbuf hw hc _ ih =>
    intro l fuel hp hb hec heof hf
    obtain ⟨f, rfl⟩ : ∃ f, fuel = f + 1 := ⟨fuel - 1, by omega⟩
    subst hp hb
    rw [do_read_loop_buffered_more P f l reads used p' hbuf hec heof hw hc,
      ih { l with
            peer := { l.peer with read_buf_ := l.peer.read_buf_.drop used },
            parser := p' } f rfl rfl hec heof (by omega)]
    simp [List.drop_drop, Nat.add_comm]

/-- C8: a `do_read` that starts with a non-empty read buffer from which the
parser completes a request without error, in one call of `write` or in
several on what the calls before left in the buffer, dispatches `do_request`
and does nothing else: no transport read, no timer, `bytes_in_` unchanged,
and the read buffer loses exactly the bytes the parser used, from the
front. -/
theorem pipelined_request_needs_no_read {σ : Type} (P : Parser σ) (fuel : Nat)
    (s : BaseHTTPPeer) (reads : List ReadCompletion) (rounds total : Nat)
    (h : ParsesBuffered P P.init s.read_buf_ rounds total) (hfuel : rounds ≤ fuel) :
    do_read P fuel s reads
        = some (({ s with complete_ := false, read_buf_ := s.read_buf_.drop total }
            : BaseHTTPPeer).emit Event.do_request)
      ∧ ∀ s', do_read P fuel s reads = some s' →
          s'.trace = s.trace ++ [Event.do_request]
            ∧ reads_made s'.trace = reads_made s.trace
            ∧ timer_waits s'.trace = timer_waits s.trace
            ∧ s'.bytes_in_ = s.bytes_in_
            ∧ s'.read_buf_ = s.read_buf_.drop total := by
  have h1 : do_read P fuel s reads
      = some (({ s with complete_ := false, read_buf_ := s.read_buf_.drop total }
          : BaseHTTPPeer).emit Event.do_request) := by
    unfold BaseHTTPPeer.do_read
    exact do_read_loop_buffered_rounds P reads P.init s.read_buf_ rounds total h _ fuel
      rfl rfl rfl rfl hfuel
  refine ⟨h1, fun s' hs' => ?_⟩
  rw [h1] at hs'
  cases hs'
  simp [emit, reads_made, timer_waits, List.count_append]

/-- C8 at two connections constructed with bytes already read.  With two
lines in the buffer and a parser that takes a line in one call, the first
`do_read` dispatches the first request and leaves the second in the buffer.
With a parser that takes one byte in each call, `do_read` goes round the loop
twice on the buffer, dispatches the request and leaves the byte after it. -/
theorem pipelined_request_needs_no_read_witness :
    do_read lineParser 1 (ctor [65, 10, 66, 10]) []
        = some (({ ctor [65, 10, 66, 10] with read_buf_ := [66, 10] }
            : BaseHTTPPeer).emit Event.do_request)
      ∧ do_read byteParser 2 (ctor [65, 10, 66]) []
        = some (({ ctor [65, 10, 66] with read_buf_ := [66] }
            : BaseHTTPPeer).emit Event.do_request) := by
  constructor
  · exact (pipelined_request_needs_no_read lineParser 1 (ctor [65, 10, 66, 10]) [] 1 2
      (ParsesBuffered.done false [65, 10, 66, 10] 2 true (by decide) (by decide)
        (by decide))
      (by decide)).1
  · exact (pipelined_request_needs_no_read byteParser 2 (ctor [65, 10, 66]) [] 2 (1 + 1)
      (ParsesBuffered.more false [65, 10, 66] 1 false 1 1 (by decide) (by decide)
        (by decide)
        (ParsesBuffered.done false [10, 66] 1 true (by decide) (by decide) (by decide)))
      (by decide)).1

/-- The connection when the `async_read` of a round has completed: the timer
was started, the read made, the timer cancelled. -/
theorem do_read_fill_eof {σ : Type} (l : ReadLocals σ) (r : ReadCompletion)
    (hr : r.ec = ErrorCode.eof) :
    do_read_fill l r
      = { l with
          peer := ((l.peer.start_timer r.arm).emit (Event.async_read bufferSize)).cancel_timer,
          ec := ErrorCode.success, eof := true } := by
  simp [do_read_fill, hr]


theorem reads_made_fail (s : BaseHTTPPeer) (ec : ErrorCode) (what : String) :
    reads_made (s.fail ec what).trace = reads_made s.trace := by
  unfold BaseHTTPPeer.fail
  split <;> simp [emit, reads_made, List.count_append]

theorem reads_made_start_timer (s : BaseHTTPPeer) (arm : ErrorCode) :
    reads_made (s.start_timer arm).trace = reads_made s.trace := by
  unfold BaseHTTPPeer.start_timer
  split
  · exact reads_made_fail s arm _
  · simp [emit, reads_made, List.count_append]

theorem reads_made_after_read (s : BaseHTTPPeer) (arm : ErrorCode) :
    reads_made ((s.start_timer arm).emit (Event.async_read bufferSize)).cancel_timer.trace
      = reads_made s.trace + 1 := by
  have h := reads_made_start_timer s arm
  simp only [reads_made] at h ⊢
  simp [cancel_timer, emit, List.count_append, h]

/-- C9: when the `async_read` of a round of `do_read` completes with
end-of-stream, the error is cleared and the parser gets `write_eof` instead of
bytes; the round then returns: `do_request` if the parser accepts and the
message is complete, `fail (eof, "read")` if it accepts and the message is
incomplete, `fail` with the parser's error if it does not accept.  The call
made exactly one read in this round and makes no other. -/
theorem eof_is_soft {σ : Type} (P : Parser σ) (fuel : Nat) (l : ReadLocals σ)
    (r : ReadCompletion) (rest : List ReadCompletion)
    (hbuf : l.peer.read_buf_ = []) (hr : r.ec = ErrorCode.eof) :
    ((do_read_fill l r).ec = ErrorCode.success ∧ (do_read_fill l r).eof = true
        ∧ (do_read_fill l r).peer
          = ((l.peer.start_timer r.arm).emit (Event.async_read bufferSize)).cancel_timer)
      ∧ do_read_loop P (fuel + 1) l (r :: rest)
        = some
          (if (P.write_eof l.parser).1 = ErrorCode.success then
            if P.complete (P.write_eof l.parser).2 = true then
              (do_read_fill l r).peer.emit Event.do_request
            else (do_read_fill l r).peer.fail ErrorCode.eof "read"
          else (do_read_fill l r).peer.fail (P.write_eof l.parser).1 "read")
      ∧ (r.arm = ErrorCode.success →
          ((do_read_fill l r).peer.emit Event.do_request).ec_ = l.peer.ec_)
      ∧ ∀ s', do_read_loop P (fuel + 1) l (r :: rest) = some s' →
          reads_made s'.trace = reads_made l.peer.trace + 1 := by
  have hf := do_read_fill_eof l r hr
  have hlen : l.peer.read_buf_.length = 0 := by simp [hbuf]
  have hloop : do_read_loop P (fuel + 1) l (r :: rest)
        = some
          (if (P.write_eof l.parser).1 = ErrorCode.success then
            if P.complete (P.write_eof l.parser).2 = true then
              (do_read_fill l r).peer.emit Event.do_request
            else (do_read_fill l r).peer.fail ErrorCode.eof "read"
          else (do_read_fill l r).peer.fail (P.write_eof l.parser).1 "read") := by
    simp only [do_read_loop, hlen, if_true]
    rw [hf]
    by_cases h1 : (P.write_eof l.parser).1 = ErrorCode.success
    · by_cases h2 : P.complete (P.write_eof l.parser).2 = true
      · simp [do_read_parse, h1, h2]
      · simp [do_read_parse, h1, h2]
    · simp [do_read_parse, h1]
  refine ⟨⟨by rw [hf], by rw [hf], by rw [hf]⟩, hloop, ?_, ?_⟩
  · intro harm
    rw [hf]
    simp [emit, cancel_timer, BaseHTTPPeer.start_timer, harm]
  · intro s' hs'
    rw [hloop] at hs'
    have hs := (Option.some.inj hs').symm
    have hp : reads_made (do_read_fill l r).peer.trace = reads_made l.peer.trace + 1 := by
      rw [hf]; exact reads_made_after_read l.peer r.arm
    rw [hs]
    split_ifs
    · rw [← hp]; simp [emit, reads_made, List.count_append]
    · rw [reads_made_fail, hp]
    · rw [reads_made_fail, hp]

/-- C9 at a concrete connection: the client closes after an incomplete line,
and the client closes with nothing sent and a parser that is already
complete. -/
theorem eof_is_soft_witness :
    do_read lineParser 2 (ctor [65]) [⟨ErrorCode.success, ErrorCode.eof, []⟩]
        = some ((({ ctor [] with ec_ := ErrorCode.eof } : BaseHTTPPeer)).emit
            (Event.timer_wait timeoutSeconds) |>.emit (Event.async_read bufferSize)
            |>.emit Event.timer_cancel |>.emit (Event.log "read" ErrorCode.eof)
            |>.emit Event.close_lowest)
      ∧ do_read_loop lineParser 1
          { peer := ctor [], parser := true, ec := ErrorCode.success, eof := false }
          [⟨ErrorCode.success, ErrorCode.eof, []⟩]
        = some ((ctor []).emit (Event.timer_wait timeoutSeconds)
            |>.emit (Event.async_read bufferSize) |>.emit Event.timer_cancel
            |>.emit Event.do_request) := by
  constructor
  · have h := (eof_is_soft lineParser 0
      { peer := ctor [], parser := false, ec := ErrorCode.success, eof := false }
      ⟨ErrorCode.success, ErrorCode.eof, []⟩ [] rfl rfl).2.1
    have h2 : do_read lineParser 2 (ctor [65]) [⟨ErrorCode.success, ErrorCode.eof, []⟩]
        = do_read_loop lineParser 1
          { peer := ctor [], parser := false, ec := ErrorCode.success, eof := false }
          [⟨ErrorCode.success, ErrorCode.eof, []⟩] := by decide
    rw [h2, h]
    decide
  · exact ((eof_is_soft lineParser 0
      { peer := ctor [], parser := true, ec := ErrorCode.success, eof := false }
      ⟨ErrorCode.success, ErrorCode.eof, []⟩ [] rfl rfl).2.1).trans (by decide)


/-! ## The flush step -/

theorem fail_bytes_out (s : BaseHTTPPeer) (ec : ErrorCode) (what : String) :
    (s.fail ec what).bytes_out_ = s.bytes_out_ := by
  unfold BaseHTTPPeer.fail
  split <;> simp [emit]

theorem start_timer_bytes_out (s : BaseHTTPPeer) (arm : ErrorCode) :
    (s.start_timer arm).bytes_out_ = s.bytes_out_ := by
  unfold BaseHTTPPeer.start_timer
  split
  · exact fail_bytes_out s arm _
  · simp [emit]

theorem on_write_bytes_out (s : BaseHTTPPeer) (n : Nat) (arm : ErrorCode) :
    (s.on_write ErrorCode.success n arm).bytes_out_
      = (s.bytes_out_ + n) % 2 ^ sizeBits := by
  by_cases h : s.wq_ = []
  · rw [on_write_idle s n arm h]
    split_ifs <;> simp [cancel_timer, emit]
  · rw [on_write_pending s n arm h]
    simp [emit, start_timer_bytes_out, cancel_timer]

theorem on_write_error (s : BaseHTTPPeer) (ec : ErrorCode) (n : Nat)
    (arm : ErrorCode) (h : ec ≠ ErrorCode.success) :
    s.on_write ec n arm = s.cancel_timer.fail ec "write" := by
  simp [BaseHTTPPeer.on_write, h]

theorem view_of_full (q : List buffer) (h : ∀ b ∈ q, b.bytes = b.data.length) :
    q.map buffer.view = q.map buffer.data := by
  apply List.map_congr_left
  intro b hb
  simp [buffer.view, h b hb]

/-- C11: a call of `on_write` with no error and `n` bytes transferred adds
`n` to `bytes_out_` in `std::size_t` arithmetic: the counter becomes
`(bytes_out_ + n) mod 2 ^ 64`, which is `bytes_out_ + n` for every counter
that has not run past 64 bits.  The call drops the old `wq2_`, makes the
former `wq_` the new `wq2_` in the same order and empties `wq_`; with `k ≥ 1`
segments formerly pending it starts exactly one transport write whose buffer
sequence is those segments in enqueue order (their full contents, every
segment holding as many bytes as its `bytes` says), and none if nothing was
pending.  Called with an error it changes neither list nor the counter and
starts no transport write. -/
theorem coalescing_flush_step (s : BaseHTTPPeer) (n : Nat) (arm ec : ErrorCode) :
    (s.on_write ErrorCode.success n arm).bytes_out_ = (s.bytes_out_ + n) % 2 ^ sizeBits
      ∧ (s.bytes_out_ + n < 2 ^ sizeBits →
          (s.on_write ErrorCode.success n arm).bytes_out_ = s.bytes_out_ + n)
      ∧ (s.on_write ErrorCode.success n arm).wq2_ = s.wq_
      ∧ (s.on_write ErrorCode.success n arm).wq_ = []
      ∧ (s.wq_ ≠ [] →
          transportBatches (s.on_write ErrorCode.success n arm).trace
            = transportBatches s.trace ++ [s.wq_.map buffer.view])
      ∧ ((∀ b ∈ s.wq_, b.bytes = b.data.length) →
          s.wq_.map buffer.view = s.wq_.map buffer.data)
      ∧ (s.wq_ = [] →
          transportBatches (s.on_write ErrorCode.success n arm).trace
            = transportBatches s.trace)
      ∧ (ec ≠ ErrorCode.success →
          (s.on_write ec n arm).wq_ = s.wq_ ∧ (s.on_write ec n arm).wq2_ = s.wq2_
            ∧ (s.on_write ec n arm).bytes_out_ = s.bytes_out_
            ∧ transportBatches (s.on_write ec n arm).trace = transportBatches s.trace) := by
  have hb := on_write_bytes_out s n arm
  refine ⟨hb, fun h => by rw [hb, Nat.mod_eq_of_lt h], ?_, ?_,
    fun h => (on_write_success_pending s n arm h).1, view_of_full s.wq_,
    fun h => (on_write_success_idle s n arm h).1, fun h => ?_⟩
  · by_cases h : s.wq_ = []
    · rw [(on_write_success_idle s n arm h).2.2, h]
    · exact (on_write_success_pending s n arm h).2.2
  · by_cases h : s.wq_ = []
    · exact (on_write_success_idle s n arm h).2.1
    · exact (on_write_success_pending s n arm h).2.1
  · rw [on_write_error s ec n arm h]
    refine ⟨(fail_queues _ _ _).1, (fail_queues _ _ _).2, ?_, ?_⟩
    · rw [fail_bytes_out]; simp [cancel_timer, emit]
    · rw [transportBatches_fail]
      simp [cancel_timer, emit, transportBatches, List.filterMap_append]

/-- C11 at a concrete connection: `[1, 2]` is in flight, `[3]` and `[4, 5]`
are pending; the completion with 2 bytes transferred counts 2, moves both
pending segments to `wq2_` and hands them over as one batch. -/
theorem coalescing_flush_step_witness :
    (coalesceExample.on_write ErrorCode.success 2 ErrorCode.success).bytes_out_ = 2
      ∧ (coalesceExample.on_write ErrorCode.success 2 ErrorCode.success).wq2_
        = [buffer.new [3], buffer.new [4, 5]]
      ∧ transportBatches (coalesceExample.on_write ErrorCode.success 2
          ErrorCode.success).trace = [[[1, 2]], [[3], [4, 5]]] := by
  have h := coalescing_flush_step coalesceExample 2 ErrorCode.success ErrorCode.eof
  exact ⟨(h.2.1 (by decide)).trans (by decide), h.2.2.1.trans (by decide),
    (h.2.2.2.2.1 (by decide)).trans (by decide)⟩

/-! ## The write queue invariant -/

theorem posted_flushes_fail (s : BaseHTTPPeer) (ec : ErrorCode) (what : String) :
    posted_flushes (s.fail ec what).trace = posted_flushes s.trace := by
  unfold BaseHTTPPeer.fail
  split <;> simp [emit, posted_flushes, List.count_append]

theorem posted_flushes_start_timer (s : BaseHTTPPeer) (arm : ErrorCode) :
    posted_flushes (s.start_timer arm).trace = posted_flushes s.trace := by
  unfold BaseHTTPPeer.start_timer
  split
  · exact posted_flushes_fail s arm _
  · simp [emit, posted_flushes, List.count_append]

theorem posted_flushes_on_write (s : BaseHTTPPeer) (n : Nat) (arm : ErrorCode) :
    posted_flushes (s.on_write ErrorCode.success n arm).trace
      = posted_flushes s.trace := by
  by_cases h : s.wq_ = []
  · rw [on_write_idle s n arm h]
    split_ifs <;> simp [cancel_timer, emit, posted_flushes, List.count_append]
  · rw [on_write_pending s n arm h]
    simp only [emit]
    rw [posted_flushes, List.count_append, ← posted_flushes, posted_flushes_start_timer]
    simp [posted_flushes, cancel_timer, emit, List.count_append]

theorem writes_started_on_write_pending (s : BaseHTTPPeer) (n : Nat) (arm : ErrorCode)
    (h : s.wq_ ≠ []) :
    writes_started (s.on_write ErrorCode.success n arm).trace
      = writes_started s.trace + 1 := by
  simp [writes_started, (on_write_success_pending s n arm h).1]

theorem writes_started_on_write_idle (s : BaseHTTPPeer) (n : Nat) (arm : ErrorCode)
    (h : s.wq_ = []) :
    writes_started (s.on_write ErrorCode.success n arm).trace
      = writes_started s.trace := by
  simp [writes_started, (on_write_success_idle s n arm h).1]

theorem write_no_trigger (s : BaseHTTPPeer) (b : List Byte) (on_strand : Bool)
    (arm : ErrorCode) (hb : b ≠ []) (h : ¬ (s.wq_ = [] ∧ s.wq2_ = [])) :
    s.write b on_strand arm = { s with wq_ := s.wq_ ++ [buffer.new b] } := by
  have hlen : b.length ≠ 0 := by simpa using hb
  have ht : (s.write_enqueue b).2 = false := by
    by_contra hc
    have hc' : (s.write_enqueue b).2 = true := by simpa using hc
    simp [write_enqueue] at hc'
    exact h ⟨by simpa using hc'.1, by simpa using hc'.2⟩
  unfold BaseHTTPPeer.write
  rw [if_neg hlen]
  simp only [ht, Bool.false_eq_true, if_false]
  rfl

/-- The invariant from what a step did to the lists and to the counters. -/
theorem queueInv_intro (q : QueueRun)
    (h1 : q.writes_done ≤ writes_started q.peer.trace)
    (h2 : q.flushes_run ≤ posted_flushes q.peer.trace)
    (h3 : q.peer.wq2_ = [] → writes_started q.peer.trace = q.writes_done)
    (h4 : q.peer.wq2_ ≠ [] → writes_started q.peer.trace = q.writes_done + 1)
    (h5 : posted_flushes q.peer.trace = q.flushes_run ∨
        (posted_flushes q.peer.trace = q.flushes_run + 1
          ∧ q.peer.wq_ ≠ [] ∧ q.peer.wq2_ = []))
    (h6 : q.peer.wq_ ≠ [] → q.peer.wq2_ = [] →
        posted_flushes q.peer.trace = q.flushes_run + 1) :
    QueueInv q := by
  refine ⟨h1, h2, fun h => ?_, fun h => ?_, ?_, fun a b => ?_⟩
  · have := h3 h; simp only [QueueRun.active_writes]; omega
  · have := h4 h; simp only [QueueRun.active_writes]; omega
  · rcases h5 with h | ⟨h, ha, hb⟩
    · left; simp only [QueueRun.outstanding_flushes]; omega
    · right; exact ⟨by simp only [QueueRun.outstanding_flushes]; omega, ha, hb⟩
  · have := h6 a b; simp only [QueueRun.outstanding_flushes]; omega

/-- The invariant, unfolded into equations between the counters. -/
theorem queueInv_elim (q : QueueRun) (h : QueueInv q) :
    q.writes_done ≤ writes_started q.peer.trace
      ∧ q.flushes_run ≤ posted_flushes q.peer.trace
      ∧ (q.peer.wq2_ = [] → writes_started q.peer.trace = q.writes_done)
      ∧ (q.peer.wq2_ ≠ [] → writes_started q.peer.trace = q.writes_done + 1)
      ∧ (posted_flushes q.peer.trace = q.flushes_run ∨
          (posted_flushes q.peer.trace = q.flushes_run + 1
            ∧ q.peer.wq_ ≠ [] ∧ q.peer.wq2_ = []))
      ∧ (q.peer.wq_ ≠ [] → q.peer.wq2_ = [] →
          posted_flushes q.peer.trace = q.flushes_run + 1) := by
  obtain ⟨h1, h2, h3, h4, h5, h6⟩ := h
  simp only [QueueRun.active_writes, QueueRun.outstanding_flushes] at h3 h4 h5 h6
  refine ⟨h1, h2, fun h => ?_, fun h => ?_, ?_, fun a b => ?_⟩
  · have := h3 h; omega
  · have := h4 h; omega
  · rcases h5 with h | ⟨h, ha, hb⟩
    · left; omega
    · right; exact ⟨by omega, ha, hb⟩
  · have := h6 a b; omega

/-- Running `on_write` with no error keeps the invariant when it is a posted
flush that runs. -/
theorem queueInv_run_flush (q : QueueRun) (arm : ErrorCode) (h : QueueInv q)
    (hp : 0 < q.outstanding_flushes) :
    QueueInv { q with peer := q.peer.on_write ErrorCode.success 0 arm,
                      flushes_run := q.flushes_run + 1 } := by
  obtain ⟨h1, h2, h3, h4, h5, h6⟩ := queueInv_elim q h
  simp only [QueueRun.outstanding_flushes] at hp
  have h5' : posted_flushes q.peer.trace = q.flushes_run + 1
      ∧ q.peer.wq_ ≠ [] ∧ q.peer.wq2_ = [] := by
    rcases h5 with h | h
    · omega
    · exact h
  obtain ⟨hP, hw, hw2⟩ := h5'
  obtain ⟨-, e1, e2⟩ := on_write_success_pending q.peer 0 arm hw
  have eS := writes_started_on_write_pending q.peer 0 arm hw
  have eP := posted_flushes_on_write q.peer 0 arm
  have hS := h3 hw2
  apply queueInv_intro
  · show q.writes_done ≤ writes_started (q.peer.on_write ErrorCode.success 0 arm).trace
    omega
  · show q.flushes_run + 1 ≤ posted_flushes (q.peer.on_write ErrorCode.success 0 arm).trace
    omega
  · intro hc
    exact absurd (e2 ▸ hc) hw
  · intro _
    show writes_started (q.peer.on_write ErrorCode.success 0 arm).trace = q.writes_done + 1
    omega
  · left
    show posted_flushes (q.peer.on_write ErrorCode.success 0 arm).trace = q.flushes_run + 1
    omega
  · intro hc
    exact absurd e1 hc

/-- Running `on_write` with no error keeps the invariant when it is the
completion of the active transport write. -/
theorem queueInv_completed (q : QueueRun) (n : Nat) (arm : ErrorCode) (h : QueueInv q)
    (ha : 0 < q.active_writes) :
    QueueInv { q with peer := q.peer.on_write ErrorCode.success n arm,
                      writes_done := q.writes_done + 1 } := by
  obtain ⟨h1, h2, h3, h4, h5, h6⟩ := queueInv_elim q h
  simp only [QueueRun.active_writes] at ha
  have hw2 : q.peer.wq2_ ≠ [] := by
    intro hc
    have := h3 hc
    omega
  have hS := h4 hw2
  have hP : posted_flushes q.peer.trace = q.flushes_run := by
    rcases h5 with h | ⟨-, -, h⟩
    · exact h
    · exact absurd h hw2
  have eP := posted_flushes_on_write q.peer n arm
  by_cases hw : q.peer.wq_ = []
  · obtain ⟨-, e1, e2⟩ := on_write_success_idle q.peer n arm hw
    have eS := writes_started_on_write_idle q.peer n arm hw
    apply queueInv_intro
    · show q.writes_done + 1 ≤ writes_started (q.peer.on_write ErrorCode.success n arm).trace
      omega
    · show q.flushes_run ≤ posted_flushes (q.peer.on_write ErrorCode.success n arm).trace
      omega
    · intro _
      show writes_started (q.peer.on_write ErrorCode.success n arm).trace = q.writes_done + 1
      omega
    · intro hc
      exact absurd e2 hc
    · left
      show posted_flushes (q.peer.on_write ErrorCode.success n arm).trace = q.flushes_run
      omega
    · intro hc
      exact absurd e1 hc
  · obtain ⟨-, e1, e2⟩ := on_write_success_pending q.peer n arm hw
    have eS := writes_started_on_write_pending q.peer n arm hw
    apply queueInv_intro
    · show q.writes_done + 1 ≤ writes_started (q.peer.on_write ErrorCode.success n arm).trace
      omega
    · show q.flushes_run ≤ posted_flushes (q.peer.on_write ErrorCode.success n arm).trace
      omega
    · intro hc
      exact absurd (e2 ▸ hc) hw
    · intro _
      show writes_started (q.peer.on_write ErrorCode.success n arm).trace
        = q.writes_done + 1 + 1
      omega
    · left
      show posted_flushes (q.peer.on_write ErrorCode.success n arm).trace = q.flushes_run
      omega
    · intro hc
      exact absurd e1 hc

/-- A `write` call taken as one step keeps the invariant. -/
theorem queueInv_write (q : QueueRun) (b : List Byte) (on_strand : Bool)
    (arm : ErrorCode) (h : QueueInv q) :
    QueueInv { q with peer := q.peer.write b on_strand arm } := by
  obtain ⟨h1, h2, h3, h4, h5, h6⟩ := queueInv_elim q h
  by_cases hb : b = []
  · have : q.peer.write b on_strand arm = q.peer := by
      subst hb; simp [BaseHTTPPeer.write]
    rw [this]
    exact h
  by_cases ht : q.peer.wq_ = [] ∧ q.peer.wq2_ = []
  · obtain ⟨hw, hw2⟩ := ht
    have hS := h3 hw2
    have hP : posted_flushes q.peer.trace = q.flushes_run := by
      rcases h5 with h | ⟨-, h, -⟩
      · exact h
      · exact absurd hw h
    have hX : ({ q.peer with wq_ := [buffer.new b] } : BaseHTTPPeer).wq_ ≠ [] := by simp
    cases on_strand
    · rw [(write_trigger q.peer b arm hb hw hw2).1]
      obtain ⟨-, e1, e2⟩ := on_write_success_pending _ 0 arm hX
      have eS := writes_started_on_write_pending _ 0 arm hX
      have eP := posted_flushes_on_write
        ({ q.peer with wq_ := [buffer.new b] } : BaseHTTPPeer) 0 arm
      apply queueInv_intro
      · show q.writes_done ≤ writes_started
          (({ q.peer with wq_ := [buffer.new b] } : BaseHTTPPeer).on_write
            ErrorCode.success 0 arm).trace
        rw [eS]; show q.writes_done ≤ writes_started q.peer.trace + 1; omega
      · show q.flushes_run ≤ posted_flushes
          (({ q.peer with wq_ := [buffer.new b] } : BaseHTTPPeer).on_write
            ErrorCode.success 0 arm).trace
        rw [eP]; exact h2
      · intro hc
        rw [show ({ q with peer := ({ q.peer with wq_ := [buffer.new b] }
            : BaseHTTPPeer).on_write ErrorCode.success 0 arm } : QueueRun).peer.wq2_
            = [buffer.new b] from e2] at hc
        simp at hc
      · intro _
        show writes_started
          (({ q.peer with wq_ := [buffer.new b] } : BaseHTTPPeer).on_write
            ErrorCode.success 0 arm).trace = q.writes_done + 1
        rw [eS]; show writes_started q.peer.trace + 1 = q.writes_done + 1; omega
      · left
        show posted_flushes
          (({ q.peer with wq_ := [buffer.new b] } : BaseHTTPPeer).on_write
            ErrorCode.success 0 arm).trace = q.flushes_run
        rw [eP]; exact hP
      · intro hc
        exact absurd e1 hc
    · rw [(write_trigger q.peer b arm hb hw hw2).2]
      apply queueInv_intro
      · show q.writes_done ≤ writes_started (q.peer.trace ++ [_])
        simp [writes_started, transportBatches, List.filterMap_append] at h1 ⊢
        exact h1
      · show q.flushes_run ≤ posted_flushes (q.peer.trace ++ [_])
        simp only [posted_flushes, List.count_append] at h2 ⊢
        omega
      · intro _
        show writes_started (q.peer.trace ++ [_]) = q.writes_done
        simp [writes_started, transportBatches, List.filterMap_append] at hS ⊢
        exact hS
      · intro hc
        exact absurd hw2 hc
      · right
        refine ⟨?_, by simp [emit], hw2⟩
        show posted_flushes (q.peer.trace ++ [_]) = q.flushes_run + 1
        simp only [posted_flushes, List.count_append] at hP ⊢
        simp [hP]
      · intro _ _
        show posted_flushes (q.peer.trace ++ [_]) = q.flushes_run + 1
        simp only [posted_flushes, List.count_append] at hP ⊢
        simp [hP]
  · rw [write_no_trigger q.peer b on_strand arm hb ht]
    apply queueInv_intro
    · exact h1
    · exact h2
    · exact h3
    · exact h4
    · rcases h5 with h | ⟨h, -, hb2⟩
      · exact Or.inl h
      · exact Or.inr ⟨h, by simp, hb2⟩
    · intro _ hw2
      have hw2' : q.peer.wq2_ = [] := hw2
      have hw : q.peer.wq_ ≠ [] := fun hc => ht ⟨hc, hw2'⟩
      exact h6 hw hw2'

theorem queueInv_step (q q' : QueueRun) (op : QueueOp) (h : QueueInv q)
    (hs : q.step op = some q') : QueueInv q' := by
  cases op with
  | write b =>
    simp only [QueueRun.step, Option.some.injEq] at hs
    rw [← hs]
    exact queueInv_write q b true ErrorCode.success h
  | run_flush arm =>
    simp only [QueueRun.step] at hs
    split_ifs at hs with hp
    rw [← Option.some.inj hs]
    exact queueInv_run_flush q arm h hp
  | completed n arm =>
    simp only [QueueRun.step] at hs
    split_ifs at hs with ha
    rw [← Option.some.inj hs]
    exact queueInv_completed q n arm h ha

theorem queueInv_run (ops : List QueueOp) (q q' : QueueRun) (h : QueueInv q)
    (hr : q.run ops = some q') : QueueInv q' := by
  induction ops generalizing q with
  | nil =>
    simp only [QueueRun.run, Option.some.injEq] at hr
    rw [← hr]; exact h
  | cons op ops ih =>
    simp only [QueueRun.run] at hr
    cases hs : q.step op with
    | none => rw [hs] at hr; cases hr
    | some q1 =>
      rw [hs] at hr
      exact ih q1 (queueInv_step q q1 op h hs) hr

theorem queueInv_start (buffers : List Byte) : QueueInv (QueueRun.start buffers) := by
  apply queueInv_intro <;>
    simp [QueueRun.start, ctor, writes_started, posted_flushes, transportBatches]

/-- The write queue on the strand: in every state reached from a fresh
connection through `write` calls made on the strand, runs of a posted flush
and successful completions of the active transport write, a transport write
is active exactly when `wq2_` is non-empty, at most one transport write is
active, at most one posted flush is outstanding, and whenever `wq_` is
non-empty a transport write is active or exactly one posted flush is
outstanding. -/
theorem write_queue_invariant_on_strand (buffers : List Byte) (ops : List QueueOp)
    (q : QueueRun) (hr : (QueueRun.start buffers).run ops = some q) :
    q.writes_done ≤ writes_started q.peer.trace
      ∧ q.flushes_run ≤ posted_flushes q.peer.trace
      ∧ (0 < q.active_writes ↔ q.peer.wq2_ ≠ [])
      ∧ q.active_writes ≤ 1
      ∧ q.outstanding_flushes ≤ 1
      ∧ (q.peer.wq_ ≠ [] → 0 < q.active_writes ∨ q.outstanding_flushes = 1) := by
  obtain ⟨h1, h2, h3, h4, h5, h6⟩ :=
    queueInv_run ops (QueueRun.start buffers) q (queueInv_start buffers) hr
  refine ⟨h1, h2, ⟨fun ha hc => ?_, fun hc => ?_⟩, ?_, ?_, fun hw => ?_⟩
  · have := h3 hc; omega
  · have := h4 hc; omega
  · by_cases hc : q.peer.wq2_ = []
    · have := h3 hc; omega
    · have := h4 hc; omega
  · rcases h5 with h | ⟨h, -, -⟩ <;> omega
  · by_cases hc : q.peer.wq2_ = []
    · exact Or.inr (h6 hw hc)
    · have := h4 hc
      exact Or.inl (by omega)

/-- The write queue on the strand, on a concrete run: after the completion
the segment written meanwhile is in flight, one transport write is active
and no flush is outstanding. -/
theorem write_queue_invariant_on_strand_example :
    (QueueRun.start []).run queueExampleOps = some queueExampleEnd
      ∧ queueExampleEnd.peer.wq2_ = [buffer.new [3]] ∧ queueExampleEnd.peer.wq_ = []
      ∧ queueExampleEnd.active_writes = 1 ∧ queueExampleEnd.outstanding_flushes = 0
      ∧ (0 < queueExampleEnd.active_writes ↔ queueExampleEnd.peer.wq2_ ≠ []) := by
  have hr : (QueueRun.start []).run queueExampleOps = some queueExampleEnd := by decide
  exact ⟨hr, by decide, by decide, by decide, by decide,
    (write_queue_invariant_on_strand [] queueExampleOps queueExampleEnd hr).2.2.1⟩

/-- C13, the code at the failing input: `[1]` is written on the strand and
transmitted; while the strand is between the unlock and the test of `wq2_`
in the completion handler, another thread writes `[3]` and, being off the
strand, runs the flush itself; the strand then starts a second transport
write of `[3]`.  Three transport writes have been started and one has
completed: two are active at once, both for the one segment in `wq2_`. -/
theorem two_transport_writes_active :
    (RaceRun.start []).run racedOps = some racedEnd
      ∧ racedEnd.queue.peer.wq2_ = [buffer.new [3]] ∧ racedEnd.queue.peer.wq_ = []
      ∧ transportBatches racedEnd.queue.peer.trace = [[[1]], [[3]], [[3]]]
      ∧ writes_started racedEnd.queue.peer.trace = 3 ∧ racedEnd.queue.writes_done = 1
      ∧ racedEnd.queue.active_writes = 2 ∧ ¬ racedEnd.queue.active_writes ≤ 1 := by
  decide

/-! ## The timeout guard -/

theorem timer_counts_fail (s : BaseHTTPPeer) (ec : ErrorCode) (what : String) :
    timer_waits (s.fail ec what).trace = timer_waits s.trace
      ∧ timer_cancels (s.fail ec what).trace = timer_cancels s.trace := by
  unfold BaseHTTPPeer.fail
  split <;> simp [emit, timer_waits, timer_cancels, List.count_append]

/-- The streaming path never arms and never cancels the timer, whatever the
producer and the transport do. -/
theorem do_writer_leaves_timer {ω : Type} (W : Writer ω) (fuel : Nat)
    (s : BaseHTTPPeer) (writer : ω) (keep_alive : Bool)
    (writes : List (ErrorCode × Nat)) (s' : BaseHTTPPeer)
    (h : do_writer W fuel s writer keep_alive writes = some s') :
    timer_waits s'.trace = timer_waits s.trace
      ∧ timer_cancels s'.trace = timer_cancels s.trace := by
  have hemit : ∀ (x : BaseHTTPPeer) (e : List (List Byte)),
      timer_waits (x.emit (Event.async_write_writer e)).trace = timer_waits x.trace
        ∧ timer_cancels (x.emit (Event.async_write_writer e)).trace
          = timer_cancels x.trace := by
    intro x e
    simp [emit, timer_waits, timer_cancels, List.count_append]
  induction fuel generalizing s writer writes with
  | zero => simp [do_writer] at h
  | succ fuel ih =>
    by_cases h1 : (W.prepare writer bufferSize).1 = true
    · cases writes with
      | nil => simp [do_writer, h1] at h
      | cons c rest =>
        by_cases h2 : c.1 = ErrorCode.success
        · by_cases h3 : W.complete (W.consume (W.prepare writer bufferSize).2 c.2) = true
          · cases keep_alive
            · simp only [do_writer, h1, h2, h3, Bool.not_true, Bool.not_false,
                Bool.false_eq_true, if_false, if_true, ne_eq, not_true_eq_false,
                Option.some.injEq] at h
              rw [← h]
              simp [emit, timer_waits, timer_cancels, List.count_append]
            · simp only [do_writer, h1, h2, h3, Bool.not_true, Bool.not_false,
                Bool.false_eq_true, if_false, if_true, ne_eq, not_true_eq_false,
                Option.some.injEq] at h
              rw [← h]
              simp [emit, timer_waits, timer_cancels, List.count_append]
          · simp only [do_writer, h1, h2, h3, Bool.not_true, Bool.false_eq_true,
              if_false, ne_eq, not_true_eq_false] at h
            obtain ⟨a, b⟩ := ih _ _ _ h
            exact ⟨a.trans (hemit _ _).1, b.trans (hemit _ _).2⟩
        · simp only [do_writer, h1, h2, Bool.not_true, Bool.false_eq_true, if_false,
            ne_eq, not_false_eq_true, if_true, Option.some.injEq] at h
          rw [← h]
          obtain ⟨a, b⟩ := timer_counts_fail
            (s.emit (Event.async_write_writer (W.data (W.prepare writer bufferSize).2)))
            c.1 "writer"
          exact ⟨a.trans (hemit _ _).1, b.trans (hemit _ _).2⟩
    · have h1' : (W.prepare writer bufferSize).1 = false := by simpa using h1
      simp only [do_writer, h1', Bool.not_false, if_true, Option.some.injEq] at h
      rw [← h]
      exact ⟨rfl, rfl⟩

/-- The buffered flush is guarded: the completion handler cancels the timer
first, and the next transport write is started right after the timer is
armed. -/
theorem flush_is_guarded (s : BaseHTTPPeer) (n : Nat) (h : s.wq_ ≠ []) :
    (s.on_write ErrorCode.success n ErrorCode.success).trace
      = s.trace ++ [Event.timer_cancel, Event.timer_wait timeoutSeconds,
          Event.async_write (s.wq_.map buffer.view)] := by
  rw [on_write_pending s n _ h]
  simp [BaseHTTPPeer.start_timer, cancel_timer, emit]

/-- The transport read is guarded: the timer is armed right before the read
and cancelled when it completes, whatever the read reports. -/
theorem read_is_guarded {σ : Type} (l : ReadLocals σ) (r : ReadCompletion)
    (h : r.arm = ErrorCode.success) :
    (do_read_fill l r).peer.trace
      = l.peer.trace ++ [Event.timer_wait timeoutSeconds, Event.async_read bufferSize,
          Event.timer_cancel] := by
  unfold BaseHTTPPeer.do_read_fill
  simp only [h]
  split_ifs <;> simp [BaseHTTPPeer.start_timer, cancel_timer, emit]

/-- C12, the code at the failing input: `do_writer` with a producer that has
three bytes ready calls `async_write` without arming the timer before it and
without cancelling it after it; the buffered flush and the transport read on
the same connection are wrapped in `timer_wait` and `timer_cancel`. -/
theorem streaming_write_is_unguarded :
    do_writer chunkWriter 1 (ctor []) [1, 2, 3] true [(ErrorCode.success, 3)]
        = some (((ctor []).emit (Event.async_write_writer [[1, 2, 3]])).emit
            Event.spawn_do_read)
      ∧ (pendingExample.on_write ErrorCode.success 0 ErrorCode.success).trace
        = pendingExample.trace ++ [Event.timer_cancel, Event.timer_wait timeoutSeconds,
            Event.async_write [[7]]]
      ∧ (do_read lineParser 1 (ctor [])
            [⟨ErrorCode.success, ErrorCode.success, [65, 10]⟩]).map
          (fun s => s.trace)
        = some [Event.timer_wait timeoutSeconds, Event.async_read bufferSize,
            Event.timer_cancel, Event.do_request] := by
  decide

end Ripple
